import Mathlib

/-!
# Verification of the uc-adapter-aws identity & policy lifecycle manager

This file gives a shallow embedding, in Lean, of the IAM group/user/policy
lifecycle logic of the repository (src/common/naming.py, src/iam/group_manager.py,
src/iam/user_manager.py and the front-door handlers in src/main.py), together
with theorems settling the frozen claims about that code.

The remote AWS IAM directory service is modelled as an explicit state record
(`IAMState`); every boto3 client call of the source becomes a pure function
from a state to a result-and-state pair, recording the call in a trace field
so that "no remote call is made" style properties can be stated.  `ClientError`
values carry the AWS error code and message the source branches on
(`NoSuchEntity`, `EntityAlreadyExists`, `DeleteConflict`, ...).  Injected
remote failures (throttling / permission errors) are modelled by the
`failUserCreates` / `failGroupCreates` fields: a create call whose target name
is listed there raises a `ServiceFailure` client error, which lets us state
how the code reacts to non-idempotent remote failures.

Python `set` iteration order is not specified; the deduplicated
`users_to_delete` set of `delete_group_and_users` is determinised here as an
insertion-ordered duplicate-free list, which preserves exactly the properties
the claims are about (dedup and per-element processing).
-/

/-- A Python exception as seen by the source: either a botocore `ClientError`
carrying the AWS error code and message, or a `ValueError`. -/
inductive CErr : Type where
  | client (code : String) (message : String)
  | valueError (message : String)
deriving DecidableEq

/-- Result of one embedded Python call: a value or a raised exception. -/
abbrev Res (α : Type) := Except CErr α

deriving instance DecidableEq for Except

/-- The AWS error code of an exception (empty for `ValueError`, which the
source's `except ClientError` branches never see). -/
def CErr.code : CErr → String
  | .client c _ => c
  | .valueError _ => ""

/-- The message text of an exception. -/
def CErr.message : CErr → String
  | .client _ m => m
  | .valueError m => m

/-- Is the exception a botocore `ClientError` (as opposed to `ValueError`)? -/
def CErr.isClient : CErr → Bool
  | .client _ _ => true
  | .valueError _ => false

/-- One remote directory-service call, recorded in the trace: API name plus
its string arguments. -/
structure CallRec where
  api : String
  args : List String
deriving DecidableEq

/-- The state of the remote IAM directory service, plus the trace of calls
issued against it and the injected-failure configuration. -/
structure IAMState where
  groups : List String := []
  users : List String := []
  /-- group membership rows: (group name, user name) -/
  memberships : List (String × String) := []
  /-- users that currently have a login profile (console password) -/
  loginProfiles : List String := []
  /-- access key rows: (user name, key id) -/
  accessKeys : List (String × String) := []
  /-- inline user policy rows: (user name, policy name) -/
  userInlinePolicies : List (String × String) := []
  /-- attached managed policy rows: (user name, policy arn) -/
  attachedUserPolicies : List (String × String) := []
  /-- MFA device rows: (user name, serial number) -/
  mfaDevices : List (String × String) := []
  /-- inline group policy rows: (group name, policy name, policy document) -/
  groupPolicies : List (String × String × String) := []
  /-- user tag rows: (user name, tag key, tag value) -/
  userTags : List (String × String × String) := []
  /-- user names whose CreateUser call fails with a remote ServiceFailure -/
  failUserCreates : List String := []
  /-- group names whose CreateGroup call fails with a remote ServiceFailure -/
  failGroupCreates : List String := []
  /-- trace of every remote call issued so far -/
  calls : List CallRec := []
deriving DecidableEq

namespace IAMState

/-- Record one remote call in the trace. -/
def logCall (s : IAMState) (api : String) (args : List String) : IAMState :=
  { s with calls := s.calls ++ [⟨api, args⟩] }

/-- The member user names of a group. -/
def membersOf (s : IAMState) (g : String) : List String :=
  (s.memberships.filter (fun p => decide (p.1 = g))).map (fun p => p.2)

/-- The groups a user currently belongs to. -/
def groupsOf (s : IAMState) (u : String) : List String :=
  (s.memberships.filter (fun p => decide (p.2 = u))).map (fun p => p.1)

/-- The access key ids of a user. -/
def keysOf (s : IAMState) (u : String) : List String :=
  (s.accessKeys.filter (fun p => decide (p.1 = u))).map (fun p => p.2)

/-- The inline policy names of a user. -/
def inlineOf (s : IAMState) (u : String) : List String :=
  (s.userInlinePolicies.filter (fun p => decide (p.1 = u))).map (fun p => p.2)

/-- The attached managed policy arns of a user. -/
def attachedOf (s : IAMState) (u : String) : List String :=
  (s.attachedUserPolicies.filter (fun p => decide (p.1 = u))).map (fun p => p.2)

/-- The MFA serial numbers of a user. -/
def mfaOf (s : IAMState) (u : String) : List String :=
  (s.mfaDevices.filter (fun p => decide (p.1 = u))).map (fun p => p.2)

/-- The inline policy names of a group. -/
def groupPoliciesOf (s : IAMState) (g : String) : List String :=
  (s.groupPolicies.filter (fun t => decide (t.1 = g))).map (fun t => t.2.1)

end IAMState

namespace Aws

open IAMState

/-- `iam.create_group(GroupName=g)`.  Names listed in `failGroupCreates`
model a remote ServiceFailure (throttling / permissions). -/
def createGroup (g : String) (s : IAMState) : Res Unit × IAMState :=
  let s := s.logCall "CreateGroup" [g]
  if g ∈ s.failGroupCreates then
    (.error (.client "ServiceFailure" "Rate exceeded"), s)
  else if g ∈ s.groups then
    (.error (.client "EntityAlreadyExists" ("Group with name " ++ g ++ " already exists.")), s)
  else
    (.ok (), { s with groups := s.groups ++ [g] })

/-- `iam.get_group(GroupName=g)` (also the backing call of the `get_group`
paginator): returns the member user names. -/
def getGroup (g : String) (s : IAMState) : Res (List String) × IAMState :=
  let s := s.logCall "GetGroup" [g]
  if g ∈ s.groups then
    (.ok (s.membersOf g), s)
  else
    (.error (.client "NoSuchEntity" ("The group with name " ++ g ++ " cannot be found.")), s)

/-- `iam.delete_group(GroupName=g)`: AWS rejects deletion of a group that
still has members or inline policies. -/
def deleteGroup (g : String) (s : IAMState) : Res Unit × IAMState :=
  let s := s.logCall "DeleteGroup" [g]
  if g ∉ s.groups then
    (.error (.client "NoSuchEntity" ("The group with name " ++ g ++ " cannot be found.")), s)
  else if s.membersOf g ≠ [] ∨ s.groupPoliciesOf g ≠ [] then
    (.error (.client "DeleteConflict" ("Cannot delete entity, must remove users and policies from group " ++ g ++ " first.")), s)
  else
    (.ok (), { s with groups := s.groups.filter (fun x => decide (x ≠ g)) })

/-- `iam.list_group_policies(GroupName=g)`. -/
def listGroupPolicies (g : String) (s : IAMState) : Res (List String) × IAMState :=
  let s := s.logCall "ListGroupPolicies" [g]
  if g ∈ s.groups then
    (.ok (s.groupPoliciesOf g), s)
  else
    (.error (.client "NoSuchEntity" ("The group with name " ++ g ++ " cannot be found.")), s)

/-- `iam.put_group_policy(GroupName=g, PolicyName=p, PolicyDocument=doc)`:
idempotent upsert of an inline group policy. -/
def putGroupPolicy (g p doc : String) (s : IAMState) : Res Unit × IAMState :=
  let s := s.logCall "PutGroupPolicy" [g, p]
  if g ∈ s.groups then
    (.ok (), { s with groupPolicies :=
      (s.groupPolicies.filter (fun t => decide (¬ (t.1 = g ∧ t.2.1 = p)))) ++ [(g, p, doc)] })
  else
    (.error (.client "NoSuchEntity" ("The group with name " ++ g ++ " cannot be found.")), s)

/-- `iam.delete_group_policy(GroupName=g, PolicyName=p)`. -/
def deleteGroupPolicy (g p : String) (s : IAMState) : Res Unit × IAMState :=
  let s := s.logCall "DeleteGroupPolicy" [g, p]
  if (∃ t ∈ s.groupPolicies, t.1 = g ∧ t.2.1 = p) then
    (.ok (), { s with groupPolicies :=
      s.groupPolicies.filter (fun t => decide (¬ (t.1 = g ∧ t.2.1 = p))) })
  else
    (.error (.client "NoSuchEntity" ("The group policy with name " ++ p ++ " cannot be found.")), s)

/-- `iam.create_user(UserName=u, Tags=tags)`.  Names listed in
`failUserCreates` model a remote ServiceFailure. -/
def createUser (u : String) (tags : List (String × String)) (s : IAMState) : Res Unit × IAMState :=
  let s := s.logCall "CreateUser" [u]
  if u ∈ s.failUserCreates then
    (.error (.client "ServiceFailure" "Rate exceeded"), s)
  else if u ∈ s.users then
    (.error (.client "EntityAlreadyExists" ("User with name " ++ u ++ " already exists.")), s)
  else
    (.ok (), { s with users := s.users ++ [u],
                      userTags := s.userTags ++ tags.map (fun t => (u, t.1, t.2)) })

/-- `iam.tag_user(UserName=u, Tags=tags)`: upsert of the user tags. -/
def tagUser (u : String) (tags : List (String × String)) (s : IAMState) : Res Unit × IAMState :=
  let s := s.logCall "TagUser" [u]
  if u ∈ s.users then
    let keys := tags.map Prod.fst
    let kept := s.userTags.filter (fun t => decide (¬ (t.1 = u ∧ t.2.1 ∈ keys)))
    (.ok (), { s with userTags := kept ++ tags.map (fun t => (u, t.1, t.2)) })
  else
    (.error (.client "NoSuchEntity" ("The user with name " ++ u ++ " cannot be found.")), s)

/-- `iam.create_login_profile(UserName=u, Password=..., PasswordResetRequired=True)`. -/
def createLoginProfile (u : String) (s : IAMState) : Res Unit × IAMState :=
  let s := s.logCall "CreateLoginProfile" [u]
  if u ∉ s.users then
    (.error (.client "NoSuchEntity" ("The user with name " ++ u ++ " cannot be found.")), s)
  else if u ∈ s.loginProfiles then
    (.error (.client "EntityAlreadyExists" ("Login Profile for user " ++ u ++ " already exists.")), s)
  else
    (.ok (), { s with loginProfiles := s.loginProfiles ++ [u] })

/-- `iam.delete_login_profile(UserName=u)`. -/
def deleteLoginProfile (u : String) (s : IAMState) : Res Unit × IAMState :=
  let s := s.logCall "DeleteLoginProfile" [u]
  if u ∈ s.loginProfiles then
    (.ok (), { s with loginProfiles := s.loginProfiles.filter (fun x => decide (x ≠ u)) })
  else
    (.error (.client "NoSuchEntity" ("Login Profile for user " ++ u ++ " cannot be found.")), s)

/-- `iam.add_user_to_group(GroupName=g, UserName=u)`: idempotent when the
membership already exists. -/
def addUserToGroup (g u : String) (s : IAMState) : Res Unit × IAMState :=
  let s := s.logCall "AddUserToGroup" [g, u]
  if g ∉ s.groups then
    (.error (.client "NoSuchEntity" ("The group with name " ++ g ++ " cannot be found.")), s)
  else if u ∉ s.users then
    (.error (.client "NoSuchEntity" ("The user with name " ++ u ++ " cannot be found.")), s)
  else if (g, u) ∈ s.memberships then
    (.ok (), s)
  else
    (.ok (), { s with memberships := s.memberships ++ [(g, u)] })

/-- `iam.remove_user_from_group(GroupName=g, UserName=u)`. -/
def removeUserFromGroup (g u : String) (s : IAMState) : Res Unit × IAMState :=
  let s := s.logCall "RemoveUserFromGroup" [g, u]
  if (g, u) ∈ s.memberships then
    (.ok (), { s with memberships := s.memberships.filter (fun p => decide (p ≠ (g, u))) })
  else
    (.error (.client "NoSuchEntity" ("The user with name " ++ u ++ " cannot be found in group " ++ g ++ ".")), s)

/-- `iam.list_access_keys(UserName=u)` (also the paginator's backing call). -/
def listAccessKeys (u : String) (s : IAMState) : Res (List String) × IAMState :=
  let s := s.logCall "ListAccessKeys" [u]
  if u ∈ s.users then
    (.ok (s.keysOf u), s)
  else
    (.error (.client "NoSuchEntity" ("The user with name " ++ u ++ " cannot be found.")), s)

/-- `iam.delete_access_key(UserName=u, AccessKeyId=k)`. -/
def deleteAccessKey (u k : String) (s : IAMState) : Res Unit × IAMState :=
  let s := s.logCall "DeleteAccessKey" [u, k]
  if (u, k) ∈ s.accessKeys then
    (.ok (), { s with accessKeys := s.accessKeys.filter (fun p => decide (p ≠ (u, k))) })
  else
    (.error (.client "NoSuchEntity" ("The Access Key with id " ++ k ++ " cannot be found.")), s)

/-- `iam.list_user_policies(UserName=u)`. -/
def listUserPolicies (u : String) (s : IAMState) : Res (List String) × IAMState :=
  let s := s.logCall "ListUserPolicies" [u]
  if u ∈ s.users then
    (.ok (s.inlineOf u), s)
  else
    (.error (.client "NoSuchEntity" ("The user with name " ++ u ++ " cannot be found.")), s)

/-- `iam.delete_user_policy(UserName=u, PolicyName=p)`. -/
def deleteUserPolicy (u p : String) (s : IAMState) : Res Unit × IAMState :=
  let s := s.logCall "DeleteUserPolicy" [u, p]
  if (u, p) ∈ s.userInlinePolicies then
    (.ok (), { s with userInlinePolicies := s.userInlinePolicies.filter (fun q => decide (q ≠ (u, p))) })
  else
    (.error (.client "NoSuchEntity" ("The user policy with name " ++ p ++ " cannot be found.")), s)

/-- `iam.list_attached_user_policies(UserName=u)`. -/
def listAttachedUserPolicies (u : String) (s : IAMState) : Res (List String) × IAMState :=
  let s := s.logCall "ListAttachedUserPolicies" [u]
  if u ∈ s.users then
    (.ok (s.attachedOf u), s)
  else
    (.error (.client "NoSuchEntity" ("The user with name " ++ u ++ " cannot be found.")), s)

/-- `iam.detach_user_policy(UserName=u, PolicyArn=a)`. -/
def detachUserPolicy (u a : String) (s : IAMState) : Res Unit × IAMState :=
  let s := s.logCall "DetachUserPolicy" [u, a]
  if (u, a) ∈ s.attachedUserPolicies then
    (.ok (), { s with attachedUserPolicies := s.attachedUserPolicies.filter (fun q => decide (q ≠ (u, a))) })
  else
    (.error (.client "NoSuchEntity" ("The policy with arn " ++ a ++ " is not attached.")), s)

/-- `iam.list_mfa_devices(UserName=u)`. -/
def listMfaDevices (u : String) (s : IAMState) : Res (List String) × IAMState :=
  let s := s.logCall "ListMFADevices" [u]
  if u ∈ s.users then
    (.ok (s.mfaOf u), s)
  else
    (.error (.client "NoSuchEntity" ("The user with name " ++ u ++ " cannot be found.")), s)

/-- `iam.deactivate_mfa_device(UserName=u, SerialNumber=n)` — the model lets
deactivation leave the row for the paired virtual-device deletion to drop. -/
def deactivateMfaDevice (u n : String) (s : IAMState) : Res Unit × IAMState :=
  let s := s.logCall "DeactivateMFADevice" [u, n]
  if (u, n) ∈ s.mfaDevices then
    (.ok (), s)
  else
    (.error (.client "NoSuchEntity" ("The MFA device with serial " ++ n ++ " cannot be found.")), s)

/-- `iam.delete_virtual_mfa_device(SerialNumber=n)`. -/
def deleteVirtualMfaDevice (n : String) (s : IAMState) : Res Unit × IAMState :=
  let s := s.logCall "DeleteVirtualMFADevice" [n]
  if (∃ p ∈ s.mfaDevices, p.2 = n) then
    (.ok (), { s with mfaDevices := s.mfaDevices.filter (fun p => decide (p.2 ≠ n)) })
  else
    (.error (.client "NoSuchEntity" ("The MFA device with serial " ++ n ++ " cannot be found.")), s)

/-- `iam.list_groups_for_user(UserName=u)` (paginator backing call). -/
def listGroupsForUser (u : String) (s : IAMState) : Res (List String) × IAMState :=
  let s := s.logCall "ListGroupsForUser" [u]
  if u ∈ s.users then
    (.ok (s.groupsOf u), s)
  else
    (.error (.client "NoSuchEntity" ("The user with name " ++ u ++ " cannot be found.")), s)

/-- `iam.delete_user(UserName=u)`: AWS rejects the deletion while the user
still has a login profile, access keys, group memberships, inline or attached
policies, or MFA devices; the user's tags disappear with the user object. -/
def deleteUser (u : String) (s : IAMState) : Res Unit × IAMState :=
  let s := s.logCall "DeleteUser" [u]
  if u ∉ s.users then
    (.error (.client "NoSuchEntity" ("The user with name " ++ u ++ " cannot be found.")), s)
  else if u ∈ s.loginProfiles ∨ s.keysOf u ≠ [] ∨ s.groupsOf u ≠ [] ∨
          s.inlineOf u ≠ [] ∨ s.attachedOf u ≠ [] ∨ s.mfaOf u ≠ [] then
    (.error (.client "DeleteConflict" ("Cannot delete entity, must detach all resources from user " ++ u ++ " first.")), s)
  else
    (.ok (), { s with users := s.users.filter (fun x => decide (x ≠ u)),
                      userTags := s.userTags.filter (fun t => decide (t.1 ≠ u)) })

end Aws

/-! ## src/common/naming.py — the NameNormalizer -/

namespace Naming

/-- One character of the character class `[a-zA-Z0-9+=,.@_-]` kept by the
cleaning regex of `normalize_name` (the AWS-allowed identifier characters). -/
def allowedChar (c : Char) : Bool :=
  decide ((97 ≤ c.toNat ∧ c.toNat ≤ 122) ∨ (65 ≤ c.toNat ∧ c.toNat ≤ 90) ∨
    (48 ≤ c.toNat ∧ c.toNat ≤ 57) ∨
    c = '+' ∨ c = '=' ∨ c = ',' ∨ c = '.' ∨ c = '@' ∨ c = '_' ∨ c = '-')

/-- ASCII whitespace matched by the `\s` class of the whitespace-collapsing
regex (the input is pure ASCII at that point, after the transliteration). -/
def pyWhitespace (c : Char) : Bool :=
  decide (c = ' ' ∨ c = '\t' ∨ c = '\n' ∨ c = '\r' ∨ c = '\x0b' ∨ c = '\x0c')

/-- Characters stripped from both ends by `.strip('-_')`. -/
def stripSet (c : Char) : Bool :=
  decide (c = '-' ∨ c = '_')

/-- `unicodedata.normalize('NFKD', ·).encode('ascii','ignore')` at the level
of one character: ASCII characters map to themselves; an accented letter with
a canonical decomposition keeps its ASCII base letter (a representative table
of the Latin letters the repository's cohort names use); every other
non-ASCII character is dropped by the `'ignore'` encoding.  The idempotence
argument only relies on ASCII characters being fixed points. -/
def asciiTransliterate (c : Char) : List Char :=
  if c.toNat < 128 then [c]
  else if c ∈ ['á', 'à', 'â', 'ä', 'ã', 'å', 'ą'] then ['a']
  else if c ∈ ['Á', 'À', 'Â', 'Ä', 'Ã', 'Å', 'Ą'] then ['A']
  else if c ∈ ['ç', 'ć'] then ['c']
  else if c ∈ ['Ç', 'Ć'] then ['C']
  else if c ∈ ['é', 'è', 'ê', 'ë', 'ę'] then ['e']
  else if c ∈ ['É', 'È', 'Ê', 'Ë', 'Ę'] then ['E']
  else if c ∈ ['í', 'ì', 'î', 'ï'] then ['i']
  else if c ∈ ['Í', 'Ì', 'Î', 'Ï'] then ['I']
  else if c ∈ ['ñ', 'ń'] then ['n']
  else if c ∈ ['Ñ', 'Ń'] then ['N']
  else if c ∈ ['ó', 'ò', 'ô', 'ö', 'õ'] then ['o']
  else if c ∈ ['Ó', 'Ò', 'Ô', 'Ö', 'Õ'] then ['O']
  else if c ∈ ['ś'] then ['s']
  else if c ∈ ['Ś'] then ['S']
  else if c ∈ ['ú', 'ù', 'û', 'ü'] then ['u']
  else if c ∈ ['Ú', 'Ù', 'Û', 'Ü'] then ['U']
  else if c ∈ ['ý', 'ÿ'] then ['y']
  else if c ∈ ['ź', 'ż'] then ['z']
  else if c ∈ ['Ź', 'Ż'] then ['Z']
  else []

/-- The transliteration applied to a whole character list. -/
def translit : List Char → List Char
  | [] => []
  | c :: cs => asciiTransliterate c ++ translit cs

/-- The run-tracking automaton of `re.sub(r'\s+', '-', ·)`: the flag says
whether the previous character was inside a whitespace run (whose `-` has
already been emitted). -/
def subWsF : Bool → List Char → List Char
  | _, [] => []
  | inWs, c :: cs =>
    if pyWhitespace c then
      if inWs then subWsF true cs else '-' :: subWsF true cs
    else c :: subWsF false cs

/-- `re.sub(r'\s+', '-', ·)`: every maximal whitespace run becomes one `-`. -/
def subWs (l : List Char) : List Char := subWsF false l

/-- The run-tracking automaton of `re.sub(r'-+', '-', ·)`: the flag says
whether the previous character was a hyphen (already emitted). -/
def collapseHF : Bool → List Char → List Char
  | _, [] => []
  | prev, c :: cs =>
    if c = '-' then
      if prev then collapseHF true cs else '-' :: collapseHF true cs
    else c :: collapseHF false cs

/-- `re.sub(r'-+', '-', ·)`: every maximal hyphen run becomes one `-`. -/
def collapseH (l : List Char) : List Char := collapseHF false l

/-- No-double-hyphen relation between adjacent characters. -/
def ND (a b : Char) : Prop := ¬ (a = '-' ∧ b = '-')

/-- All heads (if any) of a list fail `p`. -/
def headOk (p : Char → Bool) (l : List Char) : Prop :=
  ∀ c ∈ l.head?, p c = false

/-- Shape invariant of every `normalize_name` output: only allowed
characters, no adjacent hyphens, and no stripped character at either end. -/
def NormOut (l : List Char) : Prop :=
  (∀ c ∈ l, allowedChar c = true) ∧ List.Chain' ND l ∧
    (∀ c ∈ l.head?, stripSet c = false) ∧ (∀ c ∈ l.getLast?, stripSet c = false)

end Naming

open Naming in
/-- `normalize_name` of src/common/naming.py: transliterate to ASCII, turn
whitespace runs into hyphens, drop disallowed characters, collapse hyphen
runs, and strip `-`/`_` from both ends; empty input maps to the empty
string. -/
def normalize_name (name : String) : String :=
  if name = "" then ""
  else
    let l₁ := translit name.data
    let l₂ := subWs l₁
    let l₃ := l₂.filter allowedChar
    let l₄ := collapseH l₃
    let l₅ := (l₄.dropWhile stripSet).rdropWhile stripSet
    ⟨l₅⟩

/-! ## The local policy catalog (config/policies/): filename → minified JSON -/

/-- The policy files found on disk: (filename, minified document) pairs.
`os.path.isfile` is membership; reading + json round-trip is the lookup. -/
abbrev Catalog := List (String × String)

/-- Look up the (minified) document of a policy file, `none` if absent. -/
def findDoc (cat : Catalog) (fn : String) : Option String :=
  (cat.find? (fun p => decide (p.1 = fn))).map (fun p => p.2)

/-! ## src/iam/group_manager.py — GroupManager -/

namespace GroupManager

/-- `GroupManager.group_exists`: normalize, treat the empty name and
`NoSuchEntity` as `False`, re-raise any other directory error. -/
def group_exists (group_name : String) (s : IAMState) : Res Bool × IAMState :=
  let g := normalize_name group_name
  if g = "" then (.ok false, s)
  else
    match Aws.getGroup g s with
    | (.ok _, s1) => (.ok true, s1)
    | (.error e, s1) =>
      if e.code = "NoSuchEntity" then (.ok false, s1) else (.error e, s1)

/-- The per-resource body of `GroupManager._apply_policies_from_files`
(the `for resource in resource_types` loop): skip `region` for the leader
role, resolve the filename, skip missing files, otherwise put the inline
policy and propagate any directory error.  `rp` is the `policy_prefix`
argument of the source. -/
def applyLoop (cat : Catalog) (t rp : String) : List String → IAMState → Res Unit × IAMState
  | [], s => (.ok (), s)
  | r :: rs, s =>
    if r = "region" ∧ rp = "leader" then applyLoop cat t rp rs s
    else
      let fn := if r = "region" then "regional_restriction_policy.json"
                else rp ++ "_" ++ r ++ "_policy.json"
      let pn := if r = "region" then "regional_restriction_policy"
                else rp ++ "_" ++ r ++ "_policy"
      match findDoc cat fn with
      | none => applyLoop cat t rp rs s
      | some doc =>
        match Aws.putGroupPolicy t pn doc s with
        | (.ok _, s1) => applyLoop cat t rp rs s1
        | (.error e, s1) => (.error e, s1)

/-- `GroupManager._apply_policies_from_files`: normalize the target and run
the per-resource loop. -/
def apply_policies_from_files (cat : Catalog) (target_group : String)
    (resource_types : List String) (rp : String) (s : IAMState) : Res Unit × IAMState :=
  applyLoop cat (normalize_name target_group) rp resource_types s

/-- `GroupManager.assign_policies_to_target`: a user target is ignored; a
missing group name is a `ValueError`; otherwise apply student policies with
`region` auto-added, then leader policies (minus `region`) only when the
leaders group exists. -/
def assign_policies_to_target (cat : Catalog) (resource_types : List String)
    (group_name : String) (user_name : String) (s : IAMState) : Res Unit × IAMState :=
  if user_name ≠ "" then (.ok (), s)
  else if group_name = "" then (.error (.valueError "group_name is required."), s)
  else
    let g := normalize_name group_name
    let lg := "Leaders-" ++ g
    let studentRes := if "region" ∈ resource_types then resource_types
                      else resource_types ++ ["region"]
    match apply_policies_from_files cat g studentRes "student" s with
    | (.error e, s1) => (.error e, s1)
    | (.ok _, s1) =>
      match group_exists lg s1 with
      | (.ok true, s2) =>
        apply_policies_from_files cat lg
          (resource_types.filter (fun r => decide (r ≠ "region"))) "leader" s2
      | (.ok false, s2) => (.ok (), s2)
      | (.error e, s2) => (.error e, s2)

/-- `GroupManager._create_iam_group_safe`: create, swallowing only
`EntityAlreadyExists`. -/
def create_iam_group_safe (name : String) (s : IAMState) : Res Unit × IAMState :=
  match Aws.createGroup name s with
  | (.ok _, s1) => (.ok (), s1)
  | (.error e, s1) =>
    if e.code ≠ "EntityAlreadyExists" then (.error e, s1) else (.ok (), s1)

/-- `GroupManager._add_user_to_group_safe`: add, swallowing every
`ClientError`. -/
def add_user_to_group_safe (group user : String) (s : IAMState) : IAMState :=
  (Aws.addUserToGroup group user s).2

/-- `GroupManager._attach_change_password_policy`: put the change-password
policy if its file exists (no try/except — errors propagate). -/
def attach_change_password_policy (cat : Catalog) (group_name : String)
    (s : IAMState) : Res Unit × IAMState :=
  match findDoc cat "change_password_policy.json" with
  | none => (.ok (), s)
  | some doc => Aws.putGroupPolicy group_name "change_password_policy" doc s

/-- The `except ClientError` handler of the leader-creation loop in
`create_group_with_leaders`: `EntityAlreadyExists` refreshes the tag
(swallowing tag errors); any other error is only logged. -/
def leaderErrHandler (g lu : String) (e : CErr) (s : IAMState) : IAMState :=
  if e.code = "EntityAlreadyExists" then (Aws.tagUser lu [("Group", g)] s).2
  else s

/-- The `for leader in leaders` loop of `create_group_with_leaders`: create
the user and password (errors handled by `leaderErrHandler`), then add the
user to both groups, swallowing membership errors. -/
def leadersLoop (g lg : String) : List String → IAMState → IAMState
  | [], s => s
  | leader :: rest, s =>
    let lu := normalize_name (leader ++ "-" ++ g)
    let s1 :=
      match Aws.createUser lu [("Group", g)] s with
      | (.ok _, s') =>
        match Aws.createLoginProfile lu s' with
        | (.ok _, s'') => s''
        | (.error e, s'') => leaderErrHandler g lu e s''
      | (.error e, s') => leaderErrHandler g lu e s'
    let s2 := add_user_to_group_safe lg lu s1
    let s3 := add_user_to_group_safe g lu s2
    leadersLoop g lg rest s3

/-- `GroupManager.create_group_with_leaders`: create both groups, assign
policies, attach the change-password policy to both, then create the
leaders and add them to both groups. -/
def create_group_with_leaders (cat : Catalog) (resource_types leaders : List String)
    (group_name : String) (s : IAMState) : Res Unit × IAMState :=
  let g := normalize_name group_name
  let lg := "Leaders-" ++ g
  match create_iam_group_safe g s with
  | (.error e, s1) => (.error e, s1)
  | (.ok _, s1) =>
  match create_iam_group_safe lg s1 with
  | (.error e, s2) => (.error e, s2)
  | (.ok _, s2) =>
  match assign_policies_to_target cat resource_types g "" s2 with
  | (.error e, s3) => (.error e, s3)
  | (.ok _, s3) =>
  match attach_change_password_policy cat g s3 with
  | (.error e, s4) => (.error e, s4)
  | (.ok _, s4) =>
  match attach_change_password_policy cat lg s4 with
  | (.error e, s5) => (.error e, s5)
  | (.ok _, s5) => (.ok (), leadersLoop g lg leaders s5)

/-- Python's `set.add`, determinised as duplicate-free insertion order. -/
def insertIfNew (l : List String) (x : String) : List String :=
  if x ∈ l then l else l ++ [x]

/-- The member loop of teardown phase 1: record each member in the
deduplicated to-delete set and remove its membership link, swallowing
removal errors. -/
def detachMembers (g : String) : List String → IAMState → List String →
    IAMState × List String
  | [], s, acc => (s, acc)
  | u :: us, s, acc =>
    let acc' := insertIfNew acc u
    let s' := (Aws.removeUserFromGroup g u s).2
    detachMembers g us s' acc'

/-- The inline-policy deletion loop of teardown phase 1; the first error
aborts the loop (it is raised to the per-group handler). -/
def deleteGroupPoliciesLoop (g : String) : List String → IAMState → Res Unit × IAMState
  | [], s => (.ok (), s)
  | p :: ps, s =>
    match Aws.deleteGroupPolicy g p s with
    | (.ok _, s') => deleteGroupPoliciesLoop g ps s'
    | (.error e, s') => (.error e, s')

/-- Phase 1 of `delete_group_and_users` for one group: enumerate members,
detach them, delete inline policies, delete the group; `NoSuchEntity` means
already clean, any other error is recorded in the report. -/
def cleanGroup (g : String) (s : IAMState) (acc msgs : List String) :
    IAMState × List String × List String :=
  match Aws.getGroup g s with
  | (.error e, s1) =>
    if e.code = "NoSuchEntity" then (s1, acc, msgs)
    else (s1, acc, msgs ++ ["Error: " ++ e.message])
  | (.ok members, s1) =>
    let (s2, acc2) := detachMembers g members s1 acc
    match Aws.listGroupPolicies g s2 with
    | (.error e, s3) =>
      if e.code = "NoSuchEntity" then (s3, acc2, msgs)
      else (s3, acc2, msgs ++ ["Error: " ++ e.message])
    | (.ok pnames, s3) =>
      match deleteGroupPoliciesLoop g pnames s3 with
      | (.error e, s4) =>
        if e.code = "NoSuchEntity" then (s4, acc2, msgs)
        else (s4, acc2, msgs ++ ["Error: " ++ e.message])
      | (.ok _, s4) =>
        match Aws.deleteGroup g s4 with
        | (.error e, s5) =>
          if e.code = "NoSuchEntity" then (s5, acc2, msgs)
          else (s5, acc2, msgs ++ ["Error: " ++ e.message])
        | (.ok _, s5) => (s5, acc2, msgs ++ ["Group " ++ g ++ " deleted."])

/-- The key-deletion loop of teardown phase 2 (inside its own try: the
first error aborts the loop and is swallowed). -/
def deleteKeysLoop (u : String) : List String → IAMState → IAMState
  | [], s => s
  | k :: ks, s =>
    match Aws.deleteAccessKey u k s with
    | (.ok _, s') => deleteKeysLoop u ks s'
    | (.error _, s') => s'

/-- The inline-policy deletion loop of teardown phase 2. -/
def deleteInlineLoop (u : String) : List String → IAMState → IAMState
  | [], s => s
  | p :: ps, s =>
    match Aws.deleteUserPolicy u p s with
    | (.ok _, s') => deleteInlineLoop u ps s'
    | (.error _, s') => s'

/-- The managed-policy detach loop of teardown phase 2. -/
def detachManagedLoop (u : String) : List String → IAMState → IAMState
  | [], s => s
  | a :: as_, s =>
    match Aws.detachUserPolicy u a s with
    | (.ok _, s') => detachManagedLoop u as_ s'
    | (.error _, s') => s'

/-- Steps B–E of the per-user deletion block of teardown phase 2, after the
login-profile deletion: access keys, inline policies and managed-policy
attachments — each in its own swallow-all try — then the user delete. -/
def deleteOneUserRest (u : String) (s1 : IAMState) : Bool × IAMState :=
  let s2 :=
    match Aws.listAccessKeys u s1 with
    | (.ok ks, s') => deleteKeysLoop u ks s'
    | (.error _, s') => s'
  let s3 :=
    match Aws.listUserPolicies u s2 with
    | (.ok ps, s') => deleteInlineLoop u ps s'
    | (.error _, s') => s'
  let s4 :=
    match Aws.listAttachedUserPolicies u s3 with
    | (.ok as_, s') => detachManagedLoop u as_ s'
    | (.error _, s') => s'
  match Aws.deleteUser u s4 with
  | (.ok _, s5) => (true, s5)
  | (.error _, s5) => (false, s5)

/-- The per-user deletion block of teardown phase 2 (steps A–E of
`delete_group_and_users`): delete the login profile (swallowing errors),
then steps B–E; returns whether the user landed in the removed list.  This
block is the teardown counterpart of `UserManager.delete_user`. -/
def deleteOneUser (u : String) (s : IAMState) : Bool × IAMState :=
  deleteOneUserRest u (Aws.deleteLoginProfile u s).2

/-- Phase 2 of `delete_group_and_users`: run the per-user deletion block for
every user of the deduplicated set, accumulating the removed names. -/
def phase2Loop : List String → IAMState → List String × IAMState
  | [], s => ([], s)
  | u :: us, s =>
    let (ok1, s1) := deleteOneUser u s
    let (rest, s2) := phase2Loop us s1
    ((if ok1 then [u] else []) ++ rest, s2)

/-- `GroupManager.delete_group_and_users`: clean the student group and the
leader group (phase 1), then delete every user of the deduplicated set
(phase 2), returning the removed users and the joined report. -/
def delete_group_and_users (group_name : String) (s : IAMState) :
    (List String × String) × IAMState :=
  let g := normalize_name group_name
  let (s1, toDel1, msgs1) := cleanGroup g s [] []
  let (s2, toDel2, msgs2) := cleanGroup ("Leaders-" ++ g) s1 toDel1 msgs1
  if toDel2 = [] then (([], String.intercalate "; " msgs2), s2)
  else
    let (removed, s3) := phase2Loop toDel2 s2
    ((removed, String.intercalate "; " msgs2), s3)

end GroupManager

/-! ## src/iam/user_manager.py — UserManager -/

namespace UserManager

/-- Lowercase one ASCII character (Python `.lower()` on the ASCII error
messages the source inspects). -/
def lowerChar (c : Char) : Char :=
  if 65 ≤ c.toNat ∧ c.toNat ≤ 90 then Char.ofNat (c.toNat + 32) else c

/-- Python `str.lower()`. -/
def pyLower (s : String) : String := ⟨s.data.map lowerChar⟩

/-- Is `needle` a contiguous substring of `hay` (Python's `in` on str)? -/
def hasInfixChars (needle : List Char) : List Char → Bool
  | [] => needle.isEmpty
  | c :: t => needle.isPrefixOf (c :: t) || hasInfixChars needle t

/-- Python `needle in hay` for strings. -/
def strContains (hay needle : String) : Bool :=
  hasInfixChars needle.data hay.data

/-- `UserManager._rollback_users`: for each previously created user delete
the login profile (best effort) then the user (best effort). -/
def rollbackLoop : List String → IAMState → IAMState
  | [], s => s
  | u :: rest, s =>
    let s1 := (Aws.deleteLoginProfile u s).2
    let s2 := (Aws.deleteUser u s1).2
    rollbackLoop rest s2

/-- The `for user in users` loop of `create_users_for_group`: create the
user, set the initial password, add to the group; on `EntityAlreadyExists`
skip and continue; on a missing-group `NoSuchEntity` or any other error
roll back every user created so far (the current one included once its
create call succeeded) and return the aborted-operation message. -/
def createUsersLoop (g : String) (n : Nat) : List String → List String → IAMState →
    String × IAMState
  | [], _, s =>
    ("Successfully processed " ++ toString n ++ " users for group " ++ g ++ ".", s)
  | u :: rest, created, s =>
    let un := normalize_name (u ++ "-" ++ g)
    match Aws.createUser un [("Group", g)] s with
    | (.error e, s1) =>
      if e.code = "EntityAlreadyExists" then createUsersLoop g n rest created s1
      else if e.code = "NoSuchEntity" ∧ strContains (pyLower e.message) "group" = true then
        ("Operation aborted: Group " ++ g ++ " does not exist.", rollbackLoop created s1)
      else
        ("Operation aborted: Error with " ++ un ++ " - " ++ e.message, rollbackLoop created s1)
    | (.ok _, s1) =>
      let created' := created ++ [un]
      match Aws.createLoginProfile un s1 with
      | (.error e, s2) =>
        if e.code = "EntityAlreadyExists" then createUsersLoop g n rest created' s2
        else if e.code = "NoSuchEntity" ∧ strContains (pyLower e.message) "group" = true then
          ("Operation aborted: Group " ++ g ++ " does not exist.", rollbackLoop created' s2)
        else
          ("Operation aborted: Error with " ++ un ++ " - " ++ e.message, rollbackLoop created' s2)
      | (.ok _, s2) =>
        match Aws.addUserToGroup g un s2 with
        | (.error e, s3) =>
          if e.code = "EntityAlreadyExists" then createUsersLoop g n rest created' s3
          else if e.code = "NoSuchEntity" ∧ strContains (pyLower e.message) "group" = true then
            ("Operation aborted: Group " ++ g ++ " does not exist.", rollbackLoop created' s3)
          else
            ("Operation aborted: Error with " ++ un ++ " - " ++ e.message, rollbackLoop created' s3)
        | (.ok _, s3) => createUsersLoop g n rest created' s3

/-- `UserManager.create_users_for_group`: normalize the group name and run
the member-creation loop. -/
def create_users_for_group (users : List String) (group_name : String)
    (s : IAMState) : String × IAMState :=
  let g := normalize_name group_name
  createUsersLoop g users.length users [] s

/-- The access-key deletion loop of `delete_user` (step 2): errors propagate
to the outer handler. -/
def keysDeleteAll (u : String) : List String → IAMState → Res Unit × IAMState
  | [], s => (.ok (), s)
  | k :: ks, s =>
    match Aws.deleteAccessKey u k s with
    | (.ok _, s') => keysDeleteAll u ks s'
    | (.error e, s') => (.error e, s')

/-- The remove-from-all-groups loop of `delete_user` (step 3). -/
def groupsRemoveAll (u : String) : List String → IAMState → Res Unit × IAMState
  | [], s => (.ok (), s)
  | g :: gs, s =>
    match Aws.removeUserFromGroup g u s with
    | (.ok _, s') => groupsRemoveAll u gs s'
    | (.error e, s') => (.error e, s')

/-- The managed-policy detach loop of `delete_user` (step 4). -/
def detachAll (u : String) : List String → IAMState → Res Unit × IAMState
  | [], s => (.ok (), s)
  | a :: as_, s =>
    match Aws.detachUserPolicy u a s with
    | (.ok _, s') => detachAll u as_ s'
    | (.error e, s') => (.error e, s')

/-- The inline-policy deletion loop of `delete_user` (step 5). -/
def inlineDeleteAll (u : String) : List String → IAMState → Res Unit × IAMState
  | [], s => (.ok (), s)
  | p :: ps, s =>
    match Aws.deleteUserPolicy u p s with
    | (.ok _, s') => inlineDeleteAll u ps s'
    | (.error e, s') => (.error e, s')

/-- The MFA deactivate-and-delete loop of `delete_user` (step 6). -/
def mfaRemoveAll (u : String) : List String → IAMState → Res Unit × IAMState
  | [], s => (.ok (), s)
  | m :: ms, s =>
    match Aws.deactivateMfaDevice u m s with
    | (.error e, s') => (.error e, s')
    | (.ok _, s') =>
      match Aws.deleteVirtualMfaDevice m s' with
      | (.ok _, s'') => mfaRemoveAll u ms s''
      | (.error e, s'') => (.error e, s'')

/-- The outer `except ClientError` of `delete_user`: `NoSuchEntity` becomes
`False`, anything else is re-raised. -/
def outerCatch (e : CErr) (s : IAMState) : Res Bool × IAMState :=
  if e.code = "NoSuchEntity" then (.ok false, s) else (.error e, s)

/-- Steps 2–7 of `UserManager.delete_user`, after the login-profile
deletion: keys, group memberships, attached policies, inline policies, MFA
devices, then the user delete, under the outer `except ClientError`. -/
def delete_user_rest (username : String) (s1 : IAMState) : Res Bool × IAMState :=
  match Aws.listAccessKeys username s1 with
  | (.error e, s2) => outerCatch e s2
  | (.ok ks, s2) =>
  match keysDeleteAll username ks s2 with
  | (.error e, s3) => outerCatch e s3
  | (.ok _, s3) =>
  match Aws.listGroupsForUser username s3 with
  | (.error e, s4) => outerCatch e s4
  | (.ok gs, s4) =>
  match groupsRemoveAll username gs s4 with
  | (.error e, s5) => outerCatch e s5
  | (.ok _, s5) =>
  match Aws.listAttachedUserPolicies username s5 with
  | (.error e, s6) => outerCatch e s6
  | (.ok as_, s6) =>
  match detachAll username as_ s6 with
  | (.error e, s7) => outerCatch e s7
  | (.ok _, s7) =>
  match Aws.listUserPolicies username s7 with
  | (.error e, s8) => outerCatch e s8
  | (.ok ps, s8) =>
  match inlineDeleteAll username ps s8 with
  | (.error e, s9) => outerCatch e s9
  | (.ok _, s9) =>
  match Aws.listMfaDevices username s9 with
  | (.error e, s10) => outerCatch e s10
  | (.ok ms, s10) =>
  match mfaRemoveAll username ms s10 with
  | (.error e, s11) => outerCatch e s11
  | (.ok _, s11) =>
  match Aws.deleteUser username s11 with
  | (.error e, s12) => outerCatch e s12
  | (.ok _, s12) => (.ok true, s12)

/-- `UserManager.delete_user`: the full §4.4 single-identity teardown —
login profile (ignoring `NoSuchEntity`), all access keys, removal from every
group, all managed-policy attachments, all inline policies, all MFA devices,
then the user itself; a missing user yields `False`, other errors are
re-raised. -/
def delete_user (username : String) (s : IAMState) : Res Bool × IAMState :=
  let step1 : Res Unit × IAMState :=
    match Aws.deleteLoginProfile username s with
    | (.ok _, s') => (.ok (), s')
    | (.error e, s') =>
      if e.code ≠ "NoSuchEntity" then (.error e, s') else (.ok (), s')
  match step1 with
  | (.error e, s1) => outerCatch e s1
  | (.ok _, s1) => delete_user_rest username s1

end UserManager

/-! ## src/main.py — the gRPC front-door handlers (CloudAdapterServicer) -/

namespace Servicer

/-- The observable outcome of one gRPC handler: a successful response, an
`INVALID_ARGUMENT` status, an `INTERNAL` status (the `except Exception`
branch), or `UNAVAILABLE` (offline mode). -/
inductive Outcome (ρ : Type) where
  | ok (resp : ρ)
  | invalidArgument (msg : String)
  | internal (msg : String)
  | unavailable
deriving DecidableEq

/-- `CreateGroupWithLeadersRequest`. -/
structure CreateGroupReq where
  groupName : String
  resourceTypes : List String
  leaders : List String

/-- `CreateUsersForGroupRequest`. -/
structure CreateUsersReq where
  groupName : String
  users : List String

/-- `AssignPoliciesRequest`. -/
structure AssignPoliciesReq where
  groupName : String
  resourceTypes : List String

/-- `CloudAdapterServicer.CreateGroupWithLeaders`: offline check, then the
empty-list validation, then dispatch to the manager; exceptions become
`INTERNAL`. -/
def CreateGroupWithLeaders (online : Bool) (cat : Catalog) (req : CreateGroupReq)
    (s : IAMState) : Outcome String × IAMState :=
  if ¬ online then (.unavailable, s)
  else if req.leaders = [] ∨ req.resourceTypes = [] then
    (.invalidArgument "Leaders list and Resource Types list cannot be empty.", s)
  else
    match GroupManager.create_group_with_leaders cat req.resourceTypes req.leaders
        req.groupName s with
    | (.ok _, s1) => (.ok req.groupName, s1)
    | (.error e, s1) => (.internal e.message, s1)

/-- `CloudAdapterServicer.CreateUsersForGroup`: offline check, empty-list
validation, then dispatch (the manager itself never raises). -/
def CreateUsersForGroup (online : Bool) (req : CreateUsersReq) (s : IAMState) :
    Outcome String × IAMState :=
  if ¬ online then (.unavailable, s)
  else if req.users = [] then
    (.invalidArgument "User list is empty.", s)
  else
    let (msg, s1) := UserManager.create_users_for_group req.users req.groupName s
    (.ok msg, s1)

/-- `CloudAdapterServicer.AssignPolicies`: offline check, then dispatch
straight to the manager — the source has no empty-list validation here;
exceptions (including the manager's `ValueError`) become `INTERNAL`. -/
def AssignPolicies (online : Bool) (cat : Catalog) (req : AssignPoliciesReq)
    (s : IAMState) : Outcome (Bool × String) × IAMState :=
  if ¬ online then (.unavailable, s)
  else
    match GroupManager.assign_policies_to_target cat req.resourceTypes req.groupName "" s with
    | (.ok _, s1) => (.ok (true, "Policies assigned successfully."), s1)
    | (.error e, s1) => (.internal e.message, s1)

end Servicer

/-! ## Verification auxiliaries -/

/-- Forget the call trace: two states are observably equal when they agree
on everything but the recorded remote calls. -/
def stripCalls (s : IAMState) : IAMState := { s with calls := [] }

/-- Referential integrity of a directory state: every resource row points
at an existing user (and membership rows also at an existing group).  Real
AWS states satisfy this; the rollback reasoning needs it to know that a
freshly created user carries no pre-existing resources. -/
def WF (s : IAMState) : Prop :=
  (∀ p ∈ s.memberships, p.1 ∈ s.groups ∧ p.2 ∈ s.users) ∧
    (∀ u ∈ s.loginProfiles, u ∈ s.users) ∧
    (∀ p ∈ s.accessKeys, p.1 ∈ s.users) ∧
    (∀ p ∈ s.userInlinePolicies, p.1 ∈ s.users) ∧
    (∀ p ∈ s.attachedUserPolicies, p.1 ∈ s.users) ∧
    (∀ p ∈ s.mfaDevices, p.1 ∈ s.users) ∧
    (∀ t ∈ s.userTags, t.1 ∈ s.users)

/-- The `PutGroupPolicy` targets recorded in a call trace for one group:
the policy names this trace attached to `g`. -/
def putsTo (calls : List CallRec) (g : String) : List String :=
  calls.filterMap (fun c =>
    match c.args with
    | [g', p] => if c.api = "PutGroupPolicy" ∧ g' = g then some p else none
    | _ => none)

/-- The policy name `_apply_policies_from_files` derives for a resource
type under a role, per the source's naming scheme. -/
def policyNameFor (rp r : String) : String :=
  if r = "region" then "regional_restriction_policy" else rp ++ "_" ++ r ++ "_policy"

/-- The catalog filename `_apply_policies_from_files` derives for a
resource type under a role. -/
def fileNameFor (rp r : String) : String :=
  if r = "region" then "regional_restriction_policy.json"
  else rp ++ "_" ++ r ++ "_policy.json"

/-! ## Theorems: properties of the NameNormalizer -/

namespace Naming

/-- Every character kept by the cleaning regex is ASCII. -/
theorem allowed_lt128 {c : Char} (h : allowedChar c = true) : c.toNat < 128 := by
  simp only [allowedChar, decide_eq_true_eq] at h
  rcases h with h | h | h | rfl | rfl | rfl | rfl | rfl | rfl | rfl
  · omega
  · omega
  · omega
  all_goals decide

/-- Characters kept by the cleaning regex are not whitespace. -/
theorem allowed_not_ws {c : Char} (h : allowedChar c = true) : pyWhitespace c = false := by
  simp only [allowedChar, decide_eq_true_eq] at h
  simp only [pyWhitespace, decide_eq_false_iff_not]
  rintro (rfl | rfl | rfl | rfl | rfl | rfl) <;>
    rcases h with h | h | h | h | h | h | h | h | h | h <;> simp_all

/-- ASCII characters are fixed points of the transliteration. -/
theorem translit_eq_self {l : List Char} (h : ∀ c ∈ l, allowedChar c = true) :
    translit l = l := by
  induction l with
  | nil => rfl
  | cons c cs ih =>
    have hc : c.toNat < 128 := allowed_lt128 (h c (by simp))
    simp only [translit, asciiTransliterate, if_pos hc]
    simp only [List.singleton_append, List.cons.injEq, true_and]
    exact ih fun x hx => h x (by simp [hx])

/-- A whitespace-free list is a fixed point of the whitespace automaton. -/
theorem subWsF_eq_self {l : List Char} (b : Bool) (h : ∀ c ∈ l, pyWhitespace c = false) :
    subWsF b l = l := by
  induction l generalizing b with
  | nil => rfl
  | cons c cs ih =>
    have hc : ¬ pyWhitespace c = true := by simp [h c (by simp)]
    rw [subWsF, if_neg hc]
    exact congrArg _ (ih false fun x hx => h x (by simp [hx]))

/-- A whitespace-free list is a fixed point of the whitespace substitution. -/
theorem subWs_eq_self {l : List Char} (h : ∀ c ∈ l, pyWhitespace c = false) :
    subWs l = l := subWsF_eq_self false h

/-- Characters of the hyphen-collapsed list come from the input or are `-`. -/
theorem mem_collapseHF {x : Char} {l : List Char} {b : Bool} (h : x ∈ collapseHF b l) :
    x ∈ l ∨ x = '-' := by
  induction l generalizing b with
  | nil => rw [collapseHF] at h; simp at h
  | cons c cs ih =>
    rw [collapseHF] at h
    by_cases hc : c = '-'
    · rw [if_pos hc] at h
      cases b with
      | true => rcases ih h with h | h; exacts [.inl (by simp [h]), .inr h]
      | false =>
        rw [if_neg (by simp)] at h
        simp only [List.mem_cons] at h
        rcases h with rfl | h
        · exact .inr rfl
        · rcases ih h with h | h; exacts [.inl (by simp [h]), .inr h]
    · rw [if_neg hc] at h
      simp only [List.mem_cons] at h
      rcases h with rfl | h
      · exact .inl (by simp)
      · rcases ih h with h | h; exacts [.inl (by simp [h]), .inr h]

/-- Characters of the hyphen-collapsed list come from the input or are `-`. -/
theorem mem_collapseH {x : Char} {l : List Char} (h : x ∈ collapseH l) :
    x ∈ l ∨ x = '-' := mem_collapseHF h

/-- The head surviving `dropWhile p` fails `p`. -/
theorem headOk_dropWhile (p : Char → Bool) (l : List Char) : headOk p (l.dropWhile p) := by
  induction l with
  | nil => intro c hc; simp at hc
  | cons a as ih =>
    by_cases ha : p a = true
    · rw [List.dropWhile_cons, if_pos ha]; exact ih
    · rw [List.dropWhile_cons, if_neg ha]
      intro c hc
      simp only [List.head?_cons, Option.mem_def, Option.some.injEq] at hc
      subst hc
      exact Bool.eq_false_iff.mpr ha

/-- `rdropWhile` keeps the head property (its result is a prefix). -/
theorem headOk_rdropWhile (p q : Char → Bool) {l : List Char} (h : headOk p l) :
    headOk p (l.rdropWhile q) := by
  intro c hc
  obtain ⟨t, ht⟩ := List.rdropWhile_prefix q l
  apply h
  rw [← ht]
  cases hr : l.rdropWhile q with
  | nil => rw [hr] at hc; simp at hc
  | cons d ds =>
    rw [hr] at hc
    simpa using hc

/-- The last element surviving `rdropWhile p` fails `p`. -/
theorem lastOk_rdropWhile (p : Char → Bool) (l : List Char) :
    ∀ c ∈ (l.rdropWhile p).getLast?, p c = false := by
  intro c hc
  by_cases hne : l.rdropWhile p = []
  · rw [hne] at hc; simp at hc
  · have hlast := List.rdropWhile_last_not p l hne
    rw [List.getLast?_eq_getLast _ hne] at hc
    simp only [Option.mem_def, Option.some.injEq] at hc
    rw [hc] at hlast
    exact Bool.eq_false_iff.mpr hlast

/-- The head of the hyphen-collapsed list is the head of the input. -/
theorem collapseH_head? (l : List Char) : (collapseH l).head? = l.head? := by
  cases l with
  | nil => rfl
  | cons c cs =>
    rw [collapseH, collapseHF]
    by_cases hc : c = '-'
    · rw [if_pos hc, if_neg (by simp)]; simp [hc]
    · rw [if_neg hc]; rfl

/-- The head of the skip-state automaton output is never a hyphen. -/
theorem collapseHF_true_head {l : List Char} :
    ∀ c ∈ (collapseHF true l).head?, ¬ c = '-' := by
  induction l with
  | nil => intro c hc; simp [collapseHF] at hc
  | cons d ds ih =>
    by_cases hd : d = '-'
    · rw [collapseHF, if_pos hd, if_pos rfl]; exact ih
    · rw [collapseHF, if_neg hd]
      intro c hc
      simp only [List.head?_cons, Option.mem_def, Option.some.injEq] at hc
      subst hc
      exact hd

/-- Adjacent hyphens never survive the hyphen-collapsing automaton. -/
theorem chain'_collapseHF (b : Bool) (l : List Char) :
    List.Chain' ND (collapseHF b l) := by
  induction l generalizing b with
  | nil => rw [collapseHF]; exact List.chain'_nil
  | cons c cs ih =>
    by_cases hc : c = '-'
    · rw [collapseHF, if_pos hc]
      cases b with
      | true => exact ih true
      | false =>
        rw [if_neg (by simp), List.chain'_cons']
        refine ⟨?_, ih true⟩
        intro y hy
        exact fun hcon => collapseHF_true_head y hy hcon.2
    · rw [collapseHF, if_neg hc, List.chain'_cons']
      exact ⟨fun y _ => fun hcon => hc hcon.1, ih false⟩

/-- Adjacent hyphens never survive the hyphen-collapsing substitution. -/
theorem chain'_collapseH (l : List Char) : List.Chain' ND (collapseH l) :=
  chain'_collapseHF false l

/-- On a list that does not start with a hyphen the two automaton states
agree. -/
theorem collapseHF_true_eq_false {l : List Char}
    (h : ∀ c ∈ l.head?, ¬ c = '-') : collapseHF true l = collapseHF false l := by
  cases l with
  | nil => rfl
  | cons c cs =>
    have hc : ¬ c = '-' := h c (by simp)
    rw [collapseHF, collapseHF, if_neg hc, if_neg hc]

/-- Lists without adjacent hyphens are fixed points of the collapsing. -/
theorem collapseH_eq_self {l : List Char} (h : List.Chain' ND l) : collapseH l = l := by
  rw [collapseH]
  induction l with
  | nil => rfl
  | cons c cs ih =>
    by_cases hc : c = '-'
    · rw [collapseHF, if_pos hc, if_neg (by simp)]
      have hhd : ∀ d ∈ cs.head?, ¬ d = '-' := by
        intro d hd
        cases cs with
        | nil => simp at hd
        | cons e es =>
          simp only [List.head?_cons, Option.mem_def, Option.some.injEq] at hd
          subst hd
          rw [List.chain'_cons] at h
          exact fun he => h.1 ⟨hc, he⟩
      rw [collapseHF_true_eq_false hhd, hc]
      exact congrArg _ (ih h.tail)
    · rw [collapseHF, if_neg hc]
      exact congrArg _ (ih h.tail)

end Naming

namespace Naming

/-- A list whose head fails `p` is a fixed point of `dropWhile p`. -/
theorem dropWhile_eq_self_of_headOk {p : Char → Bool} {l : List Char}
    (h : headOk p l) : l.dropWhile p = l := by
  cases l with
  | nil => rfl
  | cons c cs =>
    have := h c (by simp)
    rw [List.dropWhile_cons, if_neg (by simp [this])]

/-- A list whose last element fails `p` is a fixed point of `rdropWhile p`. -/
theorem rdropWhile_eq_self_of_lastOk {p : Char → Bool} {l : List Char}
    (h : ∀ c ∈ l.getLast?, p c = false) : l.rdropWhile p = l := by
  rw [List.rdropWhile_eq_self_iff]
  intro hl
  have := h (l.getLast hl) (by rw [List.getLast?_eq_getLast _ hl]; rfl)
  simp [this]

end Naming

open Naming in
/-- Every output of `normalize_name` satisfies the shape invariant. -/
theorem normalize_props (s : String) : NormOut (normalize_name s).data := by
  by_cases hs : s = ""
  · subst hs
    refine ⟨?_, ?_, ?_, ?_⟩ <;> simp [normalize_name]
  · rw [normalize_name, if_neg hs]
    set l₃ := (subWs (translit s.data)).filter allowedChar with hl₃
    set l₄ := collapseH l₃ with hl₄
    have hsub : (l₄.dropWhile stripSet).rdropWhile stripSet <:+: l₄ :=
      (List.rdropWhile_prefix _ _).isInfix.trans (List.dropWhile_suffix _).isInfix
    refine ⟨?_, ?_, ?_, ?_⟩
    · intro c hc
      have hc4 : c ∈ l₄ := hsub.sublist.subset hc
      rcases mem_collapseH hc4 with hc3 | rfl
      · exact (List.mem_filter.mp hc3).2
      · decide
    · exact List.Chain'.infix (chain'_collapseH l₃) hsub
    · exact headOk_rdropWhile _ _ (headOk_dropWhile _ _)
    · exact lastOk_rdropWhile _ _

open Naming in
/-- Every string satisfying the shape invariant is a `normalize_name`
fixed point. -/
theorem normalize_fixed {y : String} (h : NormOut y.data) : normalize_name y = y := by
  by_cases hy : y = ""
  · subst hy; rfl
  · obtain ⟨h1, h2, h3, h4⟩ := h
    rw [normalize_name, if_neg hy]
    dsimp only
    rw [translit_eq_self h1]
    rw [subWs_eq_self fun c hc => allowed_not_ws (h1 c hc)]
    rw [List.filter_eq_self.mpr h1]
    rw [collapseH_eq_self h2]
    rw [dropWhile_eq_self_of_headOk h3]
    rw [rdropWhile_eq_self_of_lastOk h4]

/-- `normalize_name` is idempotent (helper form, reused by later proofs). -/
theorem normalize_name_idem (s : String) :
    normalize_name (normalize_name s) = normalize_name s :=
  normalize_fixed (normalize_props s)

open Naming in
/-- Prefixing a nonempty normalized name with `Leaders-` stays normalized:
the leader-group name computed by the managers is a `normalize_name` fixed
point, so the source's re-normalization at inner call sites is the
identity on it. -/
theorem normalize_leaders {s : String} (h : normalize_name s ≠ "") :
    normalize_name ("Leaders-" ++ normalize_name s) = "Leaders-" ++ normalize_name s := by
  apply normalize_fixed
  obtain ⟨h1, h2, h3, h4⟩ := normalize_props s
  set y := normalize_name s with hy
  have hynil : y.data ≠ [] := by
    intro hnil
    exact h (String.ext hnil)
  have hpre : "Leaders-".data = ['L', 'e', 'a', 'd', 'e', 'r', 's', '-'] := rfl
  have hdata : ("Leaders-" ++ y).data = "Leaders-".data ++ y.data := String.data_append _ _
  refine ⟨?_, ?_, ?_, ?_⟩
  · intro c hc
    rw [hdata] at hc
    rcases List.mem_append.mp hc with hc | hc
    · rw [hpre] at hc
      fin_cases hc <;> decide
    · exact h1 c hc
  · rw [hdata]
    rw [List.chain'_append]
    refine ⟨?_, h2, ?_⟩
    · rw [hpre]
      simp only [List.chain'_cons, List.chain'_singleton, and_true, ND]
      refine ⟨?_, ?_, ?_, ?_, ?_, ?_, ?_⟩ <;> decide
    · intro x hx z hz
      rw [hpre] at hx
      have hx' : x = '-' := by
        have hsome : (['L', 'e', 'a', 'd', 'e', 'r', 's', '-'] : List Char).getLast? = some '-' := rfl
        rw [hsome] at hx
        have hx2 : some '-' = some x := hx
        injection hx2 with hx3
        exact hx3.symm
      subst hx'
      have hz' := h3 z hz
      simp only [stripSet, decide_eq_false_iff_not] at hz'
      exact fun hcon => hz' (.inl hcon.2)
  · intro c hc
    rw [hdata, hpre] at hc
    simp only [List.cons_append, List.head?_cons, Option.mem_def, Option.some.injEq] at hc
    subst hc
    decide
  · intro c hc
    rw [hdata, List.getLast?_append_of_ne_nil _ hynil] at hc
    exact h4 c hc

/-! ## Frame lemmas: the call log touches only the trace -/

@[simp] theorem logCall_groups (s : IAMState) (a : String) (b : List String) :
    (s.logCall a b).groups = s.groups := rfl

@[simp] theorem logCall_users (s : IAMState) (a : String) (b : List String) :
    (s.logCall a b).users = s.users := rfl

@[simp] theorem logCall_memberships (s : IAMState) (a : String) (b : List String) :
    (s.logCall a b).memberships = s.memberships := rfl

@[simp] theorem logCall_loginProfiles (s : IAMState) (a : String) (b : List String) :
    (s.logCall a b).loginProfiles = s.loginProfiles := rfl

@[simp] theorem logCall_accessKeys (s : IAMState) (a : String) (b : List String) :
    (s.logCall a b).accessKeys = s.accessKeys := rfl

@[simp] theorem logCall_userInlinePolicies (s : IAMState) (a : String) (b : List String) :
    (s.logCall a b).userInlinePolicies = s.userInlinePolicies := rfl

@[simp] theorem logCall_attachedUserPolicies (s : IAMState) (a : String) (b : List String) :
    (s.logCall a b).attachedUserPolicies = s.attachedUserPolicies := rfl

@[simp] theorem logCall_mfaDevices (s : IAMState) (a : String) (b : List String) :
    (s.logCall a b).mfaDevices = s.mfaDevices := rfl

@[simp] theorem logCall_groupPolicies (s : IAMState) (a : String) (b : List String) :
    (s.logCall a b).groupPolicies = s.groupPolicies := rfl

@[simp] theorem logCall_userTags (s : IAMState) (a : String) (b : List String) :
    (s.logCall a b).userTags = s.userTags := rfl

@[simp] theorem logCall_failUserCreates (s : IAMState) (a : String) (b : List String) :
    (s.logCall a b).failUserCreates = s.failUserCreates := rfl

@[simp] theorem logCall_failGroupCreates (s : IAMState) (a : String) (b : List String) :
    (s.logCall a b).failGroupCreates = s.failGroupCreates := rfl

/-! ## Claim theorems: the normalizer (C6) and the simple frame claims -/

/-- Claim C6: the name normalizer is idempotent — for every string `s`,
`normalize_name (normalize_name s) = normalize_name s`. -/
theorem claim_C6_normalize_idempotent (s : String) :
    normalize_name (normalize_name s) = normalize_name s :=
  normalize_name_idem s

/-- Claim C9: a policy-assignment call that names an individual identity
target (non-empty `user_name`) returns immediately: the result is success
and the directory state — call trace included — is completely unchanged, so
no remote call is issued and nothing is modified. -/
theorem claim_C9_user_target_noop (cat : Catalog) (resource_types : List String)
    (group_name user_name : String) (s : IAMState) (h : user_name ≠ "") :
    GroupManager.assign_policies_to_target cat resource_types group_name user_name s
      = (.ok (), s) := by
  rw [GroupManager.assign_policies_to_target, if_pos h]

/-- Witness for claim C9 at a concrete user-targeted request. -/
theorem claim_C9_witness :
    ("alice" ≠ "") ∧
      GroupManager.assign_policies_to_target [] ["s3"] "Grp" "alice" {} = (.ok (), {}) :=
  ⟨by decide, claim_C9_user_target_noop [] ["s3"] "Grp" "alice" {} (by decide)⟩

/-- Phase 1 of teardown on an absent group only records the lookup call:
the to-delete set and the report are untouched (already-clean semantics). -/
theorem cleanGroup_absent {g : String} {s : IAMState} (h : g ∉ s.groups)
    (acc msgs : List String) :
    GroupManager.cleanGroup g s acc msgs = (s.logCall "GetGroup" [g], acc, msgs) := by
  rw [GroupManager.cleanGroup, Aws.getGroup]
  dsimp only
  rw [show (s.logCall "GetGroup" [g]).groups = s.groups from rfl, if_neg h]
  dsimp only [CErr.code]
  rw [if_pos rfl]

/-- Claim C8: deleting a cohort that was never created (neither the student
group nor the leader group exists) succeeds and returns an empty
removed-identity list with an empty report. -/
theorem claim_C8_delete_missing_cohort (g : String) (s : IAMState)
    (h1 : normalize_name g ∉ s.groups)
    (h2 : ("Leaders-" ++ normalize_name g) ∉ s.groups) :
    (GroupManager.delete_group_and_users g s).1 = ([], "") := by
  rw [GroupManager.delete_group_and_users]
  dsimp only
  rw [cleanGroup_absent h1]
  dsimp only
  rw [cleanGroup_absent (show ("Leaders-" ++ normalize_name g) ∉
    (s.logCall "GetGroup" [normalize_name g]).groups from h2)]
  simp [String.intercalate]

/-- Witness for claim C8 on the empty directory. -/
theorem claim_C8_witness :
    (normalize_name "G" ∉ ({} : IAMState).groups) ∧
      (("Leaders-" ++ normalize_name "G") ∉ ({} : IAMState).groups) ∧
      (GroupManager.delete_group_and_users "G" {}).1 = ([], "") :=
  ⟨by decide, by decide, claim_C8_delete_missing_cohort "G" {} (by decide) (by decide)⟩

/-! ## Claim C7: the removed-identity list of teardown is duplicate-free -/

/-- Inserting into the Python-set model preserves duplicate-freedom. -/
theorem insertIfNew_nodup {l : List String} {x : String} (h : l.Nodup) :
    (GroupManager.insertIfNew l x).Nodup := by
  rw [GroupManager.insertIfNew]
  split
  · exact h
  · rename_i hx
    rw [List.nodup_append]
    refine ⟨h, List.nodup_singleton x, fun a ha hb => ?_⟩
    have : a = x := by simpa using hb
    exact hx (this ▸ ha)

/-- The to-delete set stays duplicate-free through the member loop. -/
theorem detachMembers_nodup (g : String) :
    ∀ (ms : List String) (s : IAMState) (acc : List String), acc.Nodup →
      (GroupManager.detachMembers g ms s acc).2.Nodup := by
  intro ms
  induction ms with
  | nil => intro s acc h; exact h
  | cons u us ih =>
    intro s acc h
    rw [GroupManager.detachMembers]
    exact ih _ _ (insertIfNew_nodup h)

/-- The to-delete set stays duplicate-free through phase 1. -/
theorem cleanGroup_acc_nodup (g : String) (s : IAMState) (acc msgs : List String)
    (h : acc.Nodup) : (GroupManager.cleanGroup g s acc msgs).2.1.Nodup := by
  rw [GroupManager.cleanGroup]
  split
  · split
    · exact h
    · exact h
  · rename_i members s1 heq
    dsimp only
    split
    · split
      · exact detachMembers_nodup g members s1 acc h
      · exact detachMembers_nodup g members s1 acc h
    · split
      · split
        · exact detachMembers_nodup g members s1 acc h
        · exact detachMembers_nodup g members s1 acc h
      · split
        · split
          · exact detachMembers_nodup g members s1 acc h
          · exact detachMembers_nodup g members s1 acc h
        · exact detachMembers_nodup g members s1 acc h

/-- Phase 2 removes a sublist of the to-delete set. -/
theorem phase2_removed_sublist :
    ∀ (l : List String) (s : IAMState), (GroupManager.phase2Loop l s).1.Sublist l := by
  intro l
  induction l with
  | nil => intro s; simp [GroupManager.phase2Loop]
  | cons u us ih =>
    intro s
    rw [GroupManager.phase2Loop]
    dsimp only
    split
    · exact List.Sublist.cons₂ u (ih _)
    · exact List.Sublist.cons u (ih _)

/-- The removed-identity list returned by teardown never holds an identity
twice: the to-delete set is deduplicated and each member is processed
once. -/
theorem delete_removed_nodup (g : String) (s : IAMState) :
    (GroupManager.delete_group_and_users g s).1.1.Nodup := by
  rw [GroupManager.delete_group_and_users]
  dsimp only
  have h1 := cleanGroup_acc_nodup (normalize_name g) s [] [] List.nodup_nil
  have h2 := cleanGroup_acc_nodup ("Leaders-" ++ normalize_name g)
    (GroupManager.cleanGroup (normalize_name g) s [] []).1
    (GroupManager.cleanGroup (normalize_name g) s [] []).2.1
    (GroupManager.cleanGroup (normalize_name g) s [] []).2.2 h1
  split
  · exact List.nodup_nil
  · exact ((phase2_removed_sublist _ _).nodup) h2

/-- Claim C7: an identity that is a member of both the student and leader
groups appears exactly once in the removed-identity list of teardown — in
general the removed list is duplicate-free, and in the two-group shared
membership scenario the shared identity is counted exactly once. -/
theorem claim_C7_removed_once :
    (∀ (g : String) (s : IAMState),
        (GroupManager.delete_group_and_users g s).1.1.Nodup) ∧
      (GroupManager.delete_group_and_users "G"
          { groups := ["G", "Leaders-G"], users := ["u"],
            memberships := [("G", "u"), ("Leaders-G", "u")] }).1.1.count "u" = 1 :=
  ⟨delete_removed_nodup, by decide⟩

/-! ## Claim C4: front-door empty-list validation -/

/-- Claim C4 counterexample: `AssignPolicies` with an empty `resourceTypes`
list is not rejected as an invalid argument — the handler dispatches to the
manager, which issues remote calls (it even puts the auto-added regional
restriction policy on the student group).  This refutes the claim that
every front-door operation with a required list argument rejects the empty
list before any remote call. -/
theorem claim_C4_cex :
    (Servicer.AssignPolicies true [("regional_restriction_policy.json", "RR")]
        ⟨"G", []⟩ { groups := ["G"] }).1
      = .ok (true, "Policies assigned successfully.") ∧
      (Servicer.AssignPolicies true [("regional_restriction_policy.json", "RR")]
          ⟨"G", []⟩ { groups := ["G"] }).2.calls
        = [⟨"PutGroupPolicy", ["G", "regional_restriction_policy"]⟩,
           ⟨"GetGroup", ["Leaders-G"]⟩] := by
  decide

/-- Claim C4 (amended): `CreateGroupWithLeaders` and `CreateUsersForGroup`
reject empty required lists with a distinct invalid-argument outcome before
dispatch, leaving the directory state (and its call trace) untouched;
`AssignPolicies`, however, performs no such validation and dispatches even
an empty `resourceTypes` list to the manager, which then issues remote
calls. -/
theorem claim_C4_amended :
    (∀ (cat : Catalog) (req : Servicer.CreateGroupReq) (s : IAMState),
        req.leaders = [] ∨ req.resourceTypes = [] →
        Servicer.CreateGroupWithLeaders true cat req s
          = (.invalidArgument "Leaders list and Resource Types list cannot be empty.", s)) ∧
      (∀ (req : Servicer.CreateUsersReq) (s : IAMState), req.users = [] →
        Servicer.CreateUsersForGroup true req s
          = (.invalidArgument "User list is empty.", s)) ∧
      (Servicer.AssignPolicies true [("regional_restriction_policy.json", "RR")]
          ⟨"Grp", []⟩ { groups := ["Grp"] }).2.calls ≠ [] := by
  refine ⟨?_, ?_, by decide⟩
  · intro cat req s h
    rw [Servicer.CreateGroupWithLeaders, if_neg (by simp), if_pos h]
  · intro req s h
    rw [Servicer.CreateUsersForGroup, if_neg (by simp), if_pos h]

/-- Witness for the amended claim C4 at concrete empty-list requests. -/
theorem claim_C4_amended_witness :
    Servicer.CreateGroupWithLeaders true [] ⟨"G", ["s3"], []⟩ {}
        = (.invalidArgument "Leaders list and Resource Types list cannot be empty.", ({} : IAMState)) ∧
      Servicer.CreateUsersForGroup true ⟨"G", []⟩ {}
        = (.invalidArgument "User list is empty.", ({} : IAMState)) :=
  ⟨claim_C4_amended.1 [] ⟨"G", ["s3"], []⟩ {} (.inl rfl),
   claim_C4_amended.2.1 ⟨"G", []⟩ {} rfl⟩

/-! ## Claim C5: propagation of remote failures during provisioning -/

/-- Claim C5 counterexample: a `ServiceFailure` (a remote error that is
neither already-exists nor not-found) raised while creating a leader
identity inside `create_group_with_leaders` does not make the call fail:
the `CreateUser` call is issued and fails (the identity does not exist
afterwards), yet the call returns success — the error is logged and
swallowed, not propagated. -/
theorem claim_C5_cex :
    (GroupManager.create_group_with_leaders [] ["s3"] ["Bob"] "G"
        { failUserCreates := ["Bob-G"] }).1 = .ok () ∧
      (⟨"CreateUser", ["Bob-G"]⟩ : CallRec)
        ∈ (GroupManager.create_group_with_leaders [] ["s3"] ["Bob"] "G"
            { failUserCreates := ["Bob-G"] }).2.calls ∧
      "Bob-G" ∉ (GroupManager.create_group_with_leaders [] ["s3"] ["Bob"] "G"
          { failUserCreates := ["Bob-G"] }).2.users := by
  decide

/-- Claim C5 (amended): a remote ServiceFailure raised while creating the
student group, or while creating the leader group, is fatal and propagated
to the caller of `create_group_with_leaders` (both proven for every
catalog, resource list, leader list, name and state); a ServiceFailure
while creating a leader identity is only logged and swallowed: the loop
continues with the remaining leaders, which are created and added to both
groups, and the call still returns success. -/
theorem claim_C5_amended :
    (∀ (cat : Catalog) (rts leaders : List String) (g : String) (s : IAMState),
        normalize_name g ∈ s.failGroupCreates →
        (GroupManager.create_group_with_leaders cat rts leaders g s).1
          = .error (.client "ServiceFailure" "Rate exceeded")) ∧
      (∀ (cat : Catalog) (rts leaders : List String) (g : String) (s : IAMState),
        normalize_name g ∉ s.failGroupCreates →
        "Leaders-" ++ normalize_name g ∈ s.failGroupCreates →
        (GroupManager.create_group_with_leaders cat rts leaders g s).1
          = .error (.client "ServiceFailure" "Rate exceeded")) ∧
      ((GroupManager.create_group_with_leaders [] ["s3"] ["Bob", "Carol"] "G"
          { failUserCreates := ["Bob-G"] }).1 = .ok () ∧
        "Bob-G" ∉ (GroupManager.create_group_with_leaders [] ["s3"]
            ["Bob", "Carol"] "G" { failUserCreates := ["Bob-G"] }).2.users ∧
        "Carol-G" ∈ (GroupManager.create_group_with_leaders [] ["s3"]
            ["Bob", "Carol"] "G" { failUserCreates := ["Bob-G"] }).2.users ∧
        ("Leaders-G", "Carol-G") ∈ (GroupManager.create_group_with_leaders [] ["s3"]
            ["Bob", "Carol"] "G" { failUserCreates := ["Bob-G"] }).2.memberships ∧
        ("G", "Carol-G") ∈ (GroupManager.create_group_with_leaders [] ["s3"]
            ["Bob", "Carol"] "G" { failUserCreates := ["Bob-G"] }).2.memberships) := by
  refine ⟨?_, ?_, by decide⟩
  · intro cat rts leaders g s h
    rw [GroupManager.create_group_with_leaders]
    rw [GroupManager.create_iam_group_safe, Aws.createGroup]
    rw [show (s.logCall "CreateGroup" [normalize_name g]).failGroupCreates
          = s.failGroupCreates from rfl, if_pos h]
    dsimp only [CErr.code]
    rw [if_pos (by decide)]
  · intro cat rts leaders g s hg hlg
    rw [GroupManager.create_group_with_leaders]
    rw [GroupManager.create_iam_group_safe, Aws.createGroup]
    rw [show (s.logCall "CreateGroup" [normalize_name g]).failGroupCreates
          = s.failGroupCreates from rfl, if_neg hg]
    by_cases hmem : normalize_name g ∈ s.groups
    · rw [if_pos (show normalize_name g
            ∈ (s.logCall "CreateGroup" [normalize_name g]).groups from hmem)]
      dsimp only [CErr.code]
      rw [if_neg (by decide)]
      dsimp only
      rw [GroupManager.create_iam_group_safe, Aws.createGroup]
      rw [if_pos (show "Leaders-" ++ normalize_name g
            ∈ ((s.logCall "CreateGroup" [normalize_name g]).logCall "CreateGroup"
                ["Leaders-" ++ normalize_name g]).failGroupCreates from hlg)]
      dsimp only [CErr.code]
      rw [if_pos (by decide)]
    · rw [if_neg (show normalize_name g
            ∉ (s.logCall "CreateGroup" [normalize_name g]).groups from hmem)]
      dsimp only
      rw [GroupManager.create_iam_group_safe, Aws.createGroup]
      dsimp only [IAMState.logCall]
      rw [if_pos hlg]
      dsimp only [CErr.code]
      rw [if_pos (by decide)]

/-- Witness for the amended claim C5: a concrete student-group create fault
and a concrete leader-group create fault each make the provisioning call
fail with the propagated remote error. -/
theorem claim_C5_amended_witness :
    (normalize_name "G" ∈ ({ failGroupCreates := ["G"] } : IAMState).failGroupCreates ∧
        (GroupManager.create_group_with_leaders [] ["s3"] ["Ann"] "G"
            { failGroupCreates := ["G"] }).1
          = .error (.client "ServiceFailure" "Rate exceeded")) ∧
      (normalize_name "G" ∉ ({ failGroupCreates := ["Leaders-G"] } : IAMState).failGroupCreates ∧
        "Leaders-" ++ normalize_name "G"
            ∈ ({ failGroupCreates := ["Leaders-G"] } : IAMState).failGroupCreates ∧
        (GroupManager.create_group_with_leaders [] ["s3"] ["Ann"] "G"
            { failGroupCreates := ["Leaders-G"] }).1
          = .error (.client "ServiceFailure" "Rate exceeded")) :=
  ⟨⟨by decide, claim_C5_amended.1 [] ["s3"] ["Ann"] "G"
      { failGroupCreates := ["G"] } (by decide)⟩,
    ⟨by decide, by decide, claim_C5_amended.2.1 [] ["s3"] ["Ann"] "G"
      { failGroupCreates := ["Leaders-G"] } (by decide) (by decide)⟩⟩

/-! ## Claim C1: teardown per-identity deletion vs the full `delete_user` -/

/-- Claim C1 counterexample: on an identity holding a multi-factor device,
the per-identity deletion block inside teardown fails (it never deactivates
or removes MFA devices, so the final delete call conflicts and the identity
survives), while `delete_user` removes the device and deletes the identity:
the two are not equivalent. -/
theorem claim_C1_cex :
    (GroupManager.deleteOneUser "u"
        { users := ["u"], mfaDevices := [("u", "serial-1")] }).1 = false ∧
      "u" ∈ (GroupManager.deleteOneUser "u"
          { users := ["u"], mfaDevices := [("u", "serial-1")] }).2.users ∧
      (UserManager.delete_user "u"
          { users := ["u"], mfaDevices := [("u", "serial-1")] }).1 = .ok true ∧
      "u" ∉ (UserManager.delete_user "u"
          { users := ["u"], mfaDevices := [("u", "serial-1")] }).2.users := by
  decide

/-- The teardown key-deletion loop, run on a duplicate-free list of keys
that all exist for `u`, deletes exactly those keys (and logs one call per
key). -/
theorem deleteKeysLoop_spec (u : String) :
    ∀ (ks : List String) (s : IAMState), ks.Nodup →
      (∀ k ∈ ks, (u, k) ∈ s.accessKeys) →
      GroupManager.deleteKeysLoop u ks s
        = { s with
            accessKeys := s.accessKeys.filter (fun p => decide (¬ (p.1 = u ∧ p.2 ∈ ks))),
            calls := s.calls ++ ks.map (fun k => ⟨"DeleteAccessKey", [u, k]⟩) } := by
  intro ks
  induction ks with
  | nil =>
    intro s _ _
    rw [GroupManager.deleteKeysLoop]
    have h1 : s.accessKeys.filter (fun p => decide (¬ (p.1 = u ∧ p.2 ∈ ([] : List String))))
        = s.accessKeys := List.filter_eq_self.mpr (by intro a _; simp)
    rw [h1]
    simp
  | cons k ks ih =>
    intro s hnd hmem
    rw [GroupManager.deleteKeysLoop, Aws.deleteAccessKey]
    rw [if_pos (show (u, k) ∈ (s.logCall "DeleteAccessKey" [u, k]).accessKeys from
      hmem k (by simp))]
    dsimp only
    have hside : ∀ k' ∈ ks, (u, k')
        ∈ ((s.logCall "DeleteAccessKey" [u, k]).accessKeys.filter
            (fun p => decide (p ≠ (u, k)))) := by
      intro k' hk'
      have hne : (u, k') ≠ (u, k) := by
        intro hcon
        have hkk : k' = k := congrArg Prod.snd hcon
        exact (List.nodup_cons.mp hnd).1 (hkk ▸ hk')
      exact List.mem_filter.mpr ⟨hmem k' (by simp [hk']), by simp [hne]⟩
    rw [ih _ (List.nodup_cons.mp hnd).2 hside]
    dsimp only [IAMState.logCall]
    have hfil : ((s.accessKeys.filter (fun p => decide (p ≠ (u, k)))).filter
          (fun p => decide (¬ (p.1 = u ∧ p.2 ∈ ks))))
        = s.accessKeys.filter (fun p => decide (¬ (p.1 = u ∧ p.2 ∈ k :: ks))) := by
      rw [List.filter_filter]
      apply List.filter_congr
      intro a _
      by_cases h1 : a.1 = u <;> by_cases h2 : a.2 = k <;> by_cases h3 : a.2 ∈ ks <;>
        simp [h1, h2, h3, Prod.ext_iff]
    rw [hfil, List.append_assoc]
    rfl

/-- A key listed for `u` is a row of the key table. -/
theorem pairs_mem {l : List (String × String)} {u k : String}
    (h : k ∈ (l.filter (fun p => decide (p.1 = u))).map (fun p => p.2)) : (u, k) ∈ l := by
  obtain ⟨p, hp, hpk⟩ := List.mem_map.mp h
  obtain ⟨hpl, hpu⟩ := List.mem_filter.mp hp
  have hpe : p = (u, k) := Prod.ext (by simpa using hpu) hpk
  exact hpe ▸ hpl

/-- Listing the rows of one user preserves duplicate-freedom. -/
theorem pairs_nodup {l : List (String × String)} {u : String} (h : l.Nodup) :
    ((l.filter (fun p => decide (p.1 = u))).map (fun p => p.2)).Nodup := by
  refine List.Nodup.map_on ?_ (h.filter _)
  intro x hx y hy hxy
  have hxu : x.1 = u := by simpa using (List.mem_filter.mp hx).2
  have hyu : y.1 = u := by simpa using (List.mem_filter.mp hy).2
  exact Prod.ext (hxu.trans hyu.symm) hxy

/-- Deleting every listed row of `u` is exactly dropping the rows of `u`. -/
theorem pairs_filter_all {l : List (String × String)} {u : String} :
    l.filter (fun p => decide (¬ (p.1 = u ∧
        p.2 ∈ (l.filter (fun q => decide (q.1 = u))).map (fun q => q.2))))
      = l.filter (fun p => decide (p.1 ≠ u)) := by
  apply List.filter_congr
  intro a ha
  by_cases h1 : a.1 = u
  · have hmm : a.2 ∈ (l.filter (fun q => decide (q.1 = u))).map (fun q => q.2) :=
      List.mem_map.mpr ⟨a, List.mem_filter.mpr ⟨ha, by simp [h1]⟩, rfl⟩
    simp [h1, hmm]
  · simp [h1]

/-- After dropping the rows of `u`, listing `u` yields nothing. -/
theorem pairs_of_dropped {l : List (String × String)} {u : String} :
    (((l.filter (fun p => decide (p.1 ≠ u))).filter
        (fun p => decide (p.1 = u))).map (fun p => p.2)) = [] := by
  rw [List.filter_filter]
  have hnil : (l.filter (fun a => decide (a.1 = u) && decide (a.1 ≠ u))) = [] := by
    rw [List.filter_eq_nil_iff]
    intro a _
    by_cases h : a.1 = u <;> simp [h]
  rw [hnil]
  rfl

/-- A name never survives the filter that removes it. -/
theorem not_mem_filter_ne {l : List String} {u : String} :
    u ∉ l.filter (fun x => decide (x ≠ u)) := by
  intro h
  have := (List.mem_filter.mp h).2
  simp at this

/-- The `delete_user` key-deletion loop performs the same deletions as the
teardown loop and raises nothing when every listed key exists. -/
theorem keysDeleteAll_spec (u : String) :
    ∀ (ks : List String) (s : IAMState), ks.Nodup →
      (∀ k ∈ ks, (u, k) ∈ s.accessKeys) →
      UserManager.keysDeleteAll u ks s = (.ok (), GroupManager.deleteKeysLoop u ks s) := by
  intro ks
  induction ks with
  | nil => intro s _ _; rw [UserManager.keysDeleteAll, GroupManager.deleteKeysLoop]
  | cons k ks ih =>
    intro s hnd hmem
    rw [UserManager.keysDeleteAll, GroupManager.deleteKeysLoop, Aws.deleteAccessKey]
    rw [if_pos (show (u, k) ∈ (s.logCall "DeleteAccessKey" [u, k]).accessKeys from
      hmem k (by simp))]
    dsimp only
    apply ih
    · exact (List.nodup_cons.mp hnd).2
    · intro k' hk'
      have hne : (u, k') ≠ (u, k) := by
        intro hcon
        have hkk : k' = k := congrArg Prod.snd hcon
        exact (List.nodup_cons.mp hnd).1 (hkk ▸ hk')
      exact List.mem_filter.mpr ⟨hmem k' (by simp [hk']), by simp [hne]⟩

/-- The teardown inline-policy loop, on a duplicate-free list of existing
policy names of `u`, deletes exactly those rows. -/
theorem deleteInlineLoop_spec (u : String) :
    ∀ (ps : List String) (s : IAMState), ps.Nodup →
      (∀ p ∈ ps, (u, p) ∈ s.userInlinePolicies) →
      GroupManager.deleteInlineLoop u ps s
        = { s with
            userInlinePolicies :=
              s.userInlinePolicies.filter (fun q => decide (¬ (q.1 = u ∧ q.2 ∈ ps))),
            calls := s.calls ++ ps.map (fun p => ⟨"DeleteUserPolicy", [u, p]⟩) } := by
  intro ps
  induction ps with
  | nil =>
    intro s _ _
    rw [GroupManager.deleteInlineLoop]
    have h1 : s.userInlinePolicies.filter
          (fun q => decide (¬ (q.1 = u ∧ q.2 ∈ ([] : List String))))
        = s.userInlinePolicies := List.filter_eq_self.mpr (by intro a _; simp)
    rw [h1]
    simp
  | cons p ps ih =>
    intro s hnd hmem
    rw [GroupManager.deleteInlineLoop, Aws.deleteUserPolicy]
    rw [if_pos (show (u, p) ∈ (s.logCall "DeleteUserPolicy" [u, p]).userInlinePolicies from
      hmem p (by simp))]
    dsimp only
    have hside : ∀ p' ∈ ps, (u, p')
        ∈ ((s.logCall "DeleteUserPolicy" [u, p]).userInlinePolicies.filter
            (fun q => decide (q ≠ (u, p)))) := by
      intro p' hp'
      have hne : (u, p') ≠ (u, p) := by
        intro hcon
        have hpp : p' = p := congrArg Prod.snd hcon
        exact (List.nodup_cons.mp hnd).1 (hpp ▸ hp')
      exact List.mem_filter.mpr ⟨hmem p' (by simp [hp']), by simp [hne]⟩
    rw [ih _ (List.nodup_cons.mp hnd).2 hside]
    dsimp only [IAMState.logCall]
    have hfil : ((s.userInlinePolicies.filter (fun q => decide (q ≠ (u, p)))).filter
          (fun q => decide (¬ (q.1 = u ∧ q.2 ∈ ps))))
        = s.userInlinePolicies.filter (fun q => decide (¬ (q.1 = u ∧ q.2 ∈ p :: ps))) := by
      rw [List.filter_filter]
      apply List.filter_congr
      intro a _
      by_cases h1 : a.1 = u <;> by_cases h2 : a.2 = p <;> by_cases h3 : a.2 ∈ ps <;>
        simp [h1, h2, h3, Prod.ext_iff]
    rw [hfil, List.append_assoc]
    rfl

/-- The `delete_user` inline-policy loop matches the teardown loop and
raises nothing when every listed policy exists. -/
theorem inlineDeleteAll_spec (u : String) :
    ∀ (ps : List String) (s : IAMState), ps.Nodup →
      (∀ p ∈ ps, (u, p) ∈ s.userInlinePolicies) →
      UserManager.inlineDeleteAll u ps s = (.ok (), GroupManager.deleteInlineLoop u ps s) := by
  intro ps
  induction ps with
  | nil => intro s _ _; rw [UserManager.inlineDeleteAll, GroupManager.deleteInlineLoop]
  | cons p ps ih =>
    intro s hnd hmem
    rw [UserManager.inlineDeleteAll, GroupManager.deleteInlineLoop, Aws.deleteUserPolicy]
    rw [if_pos (show (u, p) ∈ (s.logCall "DeleteUserPolicy" [u, p]).userInlinePolicies from
      hmem p (by simp))]
    dsimp only
    apply ih
    · exact (List.nodup_cons.mp hnd).2
    · intro p' hp'
      have hne : (u, p') ≠ (u, p) := by
        intro hcon
        have hpp : p' = p := congrArg Prod.snd hcon
        exact (List.nodup_cons.mp hnd).1 (hpp ▸ hp')
      exact List.mem_filter.mpr ⟨hmem p' (by simp [hp']), by simp [hne]⟩

/-- The teardown managed-policy detach loop, on a duplicate-free list of
attached arns of `u`, detaches exactly those rows. -/
theorem detachManagedLoop_spec (u : String) :
    ∀ (as_ : List String) (s : IAMState), as_.Nodup →
      (∀ a ∈ as_, (u, a) ∈ s.attachedUserPolicies) →
      GroupManager.detachManagedLoop u as_ s
        = { s with
            attachedUserPolicies :=
              s.attachedUserPolicies.filter (fun q => decide (¬ (q.1 = u ∧ q.2 ∈ as_))),
            calls := s.calls ++ as_.map (fun a => ⟨"DetachUserPolicy", [u, a]⟩) } := by
  intro as_
  induction as_ with
  | nil =>
    intro s _ _
    rw [GroupManager.detachManagedLoop]
    have h1 : s.attachedUserPolicies.filter
          (fun q => decide (¬ (q.1 = u ∧ q.2 ∈ ([] : List String))))
        = s.attachedUserPolicies := List.filter_eq_self.mpr (by intro a _; simp)
    rw [h1]
    simp
  | cons a as_ ih =>
    intro s hnd hmem
    rw [GroupManager.detachManagedLoop, Aws.detachUserPolicy]
    rw [if_pos (show (u, a) ∈ (s.logCall "DetachUserPolicy" [u, a]).attachedUserPolicies from
      hmem a (by simp))]
    dsimp only
    have hside : ∀ a' ∈ as_, (u, a')
        ∈ ((s.logCall "DetachUserPolicy" [u, a]).attachedUserPolicies.filter
            (fun q => decide (q ≠ (u, a)))) := by
      intro a' ha'
      have hne : (u, a') ≠ (u, a) := by
        intro hcon
        have haa : a' = a := congrArg Prod.snd hcon
        exact (List.nodup_cons.mp hnd).1 (haa ▸ ha')
      exact List.mem_filter.mpr ⟨hmem a' (by simp [ha']), by simp [hne]⟩
    rw [ih _ (List.nodup_cons.mp hnd).2 hside]
    dsimp only [IAMState.logCall]
    have hfil : ((s.attachedUserPolicies.filter (fun q => decide (q ≠ (u, a)))).filter
          (fun q => decide (¬ (q.1 = u ∧ q.2 ∈ as_))))
        = s.attachedUserPolicies.filter (fun q => decide (¬ (q.1 = u ∧ q.2 ∈ a :: as_))) := by
      rw [List.filter_filter]
      apply List.filter_congr
      intro x _
      by_cases h1 : x.1 = u <;> by_cases h2 : x.2 = a <;> by_cases h3 : x.2 ∈ as_ <;>
        simp [h1, h2, h3, Prod.ext_iff]
    rw [hfil, List.append_assoc]
    rfl

/-- The `delete_user` managed-policy detach loop matches the teardown loop
and raises nothing when every listed arn is attached. -/
theorem detachAll_spec (u : String) :
    ∀ (as_ : List String) (s : IAMState), as_.Nodup →
      (∀ a ∈ as_, (u, a) ∈ s.attachedUserPolicies) →
      UserManager.detachAll u as_ s = (.ok (), GroupManager.detachManagedLoop u as_ s) := by
  intro as_
  induction as_ with
  | nil => intro s _ _; rw [UserManager.detachAll, GroupManager.detachManagedLoop]
  | cons a as_ ih =>
    intro s hnd hmem
    rw [UserManager.detachAll, GroupManager.detachManagedLoop, Aws.detachUserPolicy]
    rw [if_pos (show (u, a) ∈ (s.logCall "DetachUserPolicy" [u, a]).attachedUserPolicies from
      hmem a (by simp))]
    dsimp only
    apply ih
    · exact (List.nodup_cons.mp hnd).2
    · intro a' ha'
      have hne : (u, a') ≠ (u, a) := by
        intro hcon
        have haa : a' = a := congrArg Prod.snd hcon
        exact (List.nodup_cons.mp hnd).1 (haa ▸ ha')
      exact List.mem_filter.mpr ⟨hmem a' (by simp [ha']), by simp [hne]⟩

/-- Unified form of the login-profile deletion: in both the present and the
absent case the resulting profile table is the filtered one. -/
theorem deleteLoginProfile_eq (u : String) (s : IAMState) :
    (Aws.deleteLoginProfile u s).2
      = { s with loginProfiles := s.loginProfiles.filter (fun x => decide (x ≠ u)),
                 calls := s.calls ++ [⟨"DeleteLoginProfile", [u]⟩] } := by
  rw [Aws.deleteLoginProfile]
  by_cases hp : u ∈ s.loginProfiles
  · rw [if_pos (show u ∈ (s.logCall "DeleteLoginProfile" [u]).loginProfiles from hp)]
    rfl
  · rw [if_neg (show u ∉ (s.logCall "DeleteLoginProfile" [u]).loginProfiles from hp)]
    have hf : s.loginProfiles.filter (fun x => decide (x ≠ u)) = s.loginProfiles := by
      apply List.filter_eq_self.mpr
      intro a ha
      simp only [decide_eq_true_eq]
      intro he
      exact hp (he ▸ ha)
    rw [hf]
    rfl

/-- `delete_user` always proceeds past its login-profile step (the only
error there is the swallowed `NoSuchEntity`). -/
theorem delete_user_eq_rest (u : String) (s : IAMState) :
    UserManager.delete_user u s
      = UserManager.delete_user_rest u (Aws.deleteLoginProfile u s).2 := by
  rw [UserManager.delete_user, Aws.deleteLoginProfile]
  by_cases hp : u ∈ s.loginProfiles
  · rw [if_pos (show u ∈ (s.logCall "DeleteLoginProfile" [u]).loginProfiles from hp)]
  · rw [if_neg (show u ∉ (s.logCall "DeleteLoginProfile" [u]).loginProfiles from hp)]
    dsimp only [CErr.code]
    rw [if_neg (by simp)]

/-- Forgetting the trace commutes with logging a call. -/
theorem stripCalls_logCall (s : IAMState) (a : String) (b : List String) :
    stripCalls (s.logCall a b) = stripCalls s := rfl

/-- The trace after logging one call. -/
theorem logCall_calls_eq (s : IAMState) (a : String) (b : List String) :
    (s.logCall a b).calls = s.calls ++ [⟨a, b⟩] := rfl

/-- Listing access keys of a missing user raises `NoSuchEntity`. -/
theorem listAccessKeys_absent {u : String} {s : IAMState} (h : u ∉ s.users) :
    Aws.listAccessKeys u s
      = (.error (.client "NoSuchEntity" ("The user with name " ++ u ++ " cannot be found.")),
         s.logCall "ListAccessKeys" [u]) := by
  rw [Aws.listAccessKeys, if_neg (show u ∉ (s.logCall "ListAccessKeys" [u]).users from h)]

/-- Listing access keys of an existing user returns its key ids. -/
theorem listAccessKeys_present {u : String} {s : IAMState} (h : u ∈ s.users) :
    Aws.listAccessKeys u s = (.ok (s.keysOf u), s.logCall "ListAccessKeys" [u]) := by
  rw [Aws.listAccessKeys, if_pos (show u ∈ (s.logCall "ListAccessKeys" [u]).users from h)]
  rfl

/-- Listing inline policies of a missing user raises `NoSuchEntity`. -/
theorem listUserPolicies_absent {u : String} {s : IAMState} (h : u ∉ s.users) :
    Aws.listUserPolicies u s
      = (.error (.client "NoSuchEntity" ("The user with name " ++ u ++ " cannot be found.")),
         s.logCall "ListUserPolicies" [u]) := by
  rw [Aws.listUserPolicies, if_neg (show u ∉ (s.logCall "ListUserPolicies" [u]).users from h)]

/-- Listing inline policies of an existing user returns their names. -/
theorem listUserPolicies_present {u : String} {s : IAMState} (h : u ∈ s.users) :
    Aws.listUserPolicies u s = (.ok (s.inlineOf u), s.logCall "ListUserPolicies" [u]) := by
  rw [Aws.listUserPolicies, if_pos (show u ∈ (s.logCall "ListUserPolicies" [u]).users from h)]
  rfl

/-- Listing attached policies of a missing user raises `NoSuchEntity`. -/
theorem listAttachedUserPolicies_absent {u : String} {s : IAMState} (h : u ∉ s.users) :
    Aws.listAttachedUserPolicies u s
      = (.error (.client "NoSuchEntity" ("The user with name " ++ u ++ " cannot be found.")),
         s.logCall "ListAttachedUserPolicies" [u]) := by
  rw [Aws.listAttachedUserPolicies,
    if_neg (show u ∉ (s.logCall "ListAttachedUserPolicies" [u]).users from h)]

/-- Listing attached policies of an existing user returns their arns. -/
theorem listAttachedUserPolicies_present {u : String} {s : IAMState} (h : u ∈ s.users) :
    Aws.listAttachedUserPolicies u s
      = (.ok (s.attachedOf u), s.logCall "ListAttachedUserPolicies" [u]) := by
  rw [Aws.listAttachedUserPolicies,
    if_pos (show u ∈ (s.logCall "ListAttachedUserPolicies" [u]).users from h)]
  rfl

/-- Listing groups of an existing user returns its memberships. -/
theorem listGroupsForUser_present {u : String} {s : IAMState} (h : u ∈ s.users) :
    Aws.listGroupsForUser u s = (.ok (s.groupsOf u), s.logCall "ListGroupsForUser" [u]) := by
  rw [Aws.listGroupsForUser, if_pos (show u ∈ (s.logCall "ListGroupsForUser" [u]).users from h)]
  rfl

/-- Listing MFA devices of an existing user returns their serials. -/
theorem listMfaDevices_present {u : String} {s : IAMState} (h : u ∈ s.users) :
    Aws.listMfaDevices u s = (.ok (s.mfaOf u), s.logCall "ListMFADevices" [u]) := by
  rw [Aws.listMfaDevices, if_pos (show u ∈ (s.logCall "ListMFADevices" [u]).users from h)]
  rfl

/-- Deleting a missing user raises `NoSuchEntity`. -/
theorem deleteUser_absent {u : String} {s : IAMState} (h : u ∉ s.users) :
    Aws.deleteUser u s
      = (.error (.client "NoSuchEntity" ("The user with name " ++ u ++ " cannot be found.")),
         s.logCall "DeleteUser" [u]) := by
  rw [Aws.deleteUser, if_pos (show u ∉ (s.logCall "DeleteUser" [u]).users from h)]

/-- Deleting a fully detached user succeeds, dropping the user row and its
tags. -/
theorem deleteUser_ok {u : String} {s : IAMState} (h : u ∈ s.users)
    (h1 : u ∉ s.loginProfiles) (h2 : s.keysOf u = []) (h3 : s.groupsOf u = [])
    (h4 : s.inlineOf u = []) (h5 : s.attachedOf u = []) (h6 : s.mfaOf u = []) :
    Aws.deleteUser u s
      = (.ok (), { s with users := s.users.filter (fun x => decide (x ≠ u)),
                          userTags := s.userTags.filter (fun x => decide (x.1 ≠ u)),
                          calls := s.calls ++ [⟨"DeleteUser", [u]⟩] }) := by
  rw [Aws.deleteUser]
  rw [if_neg (show ¬ u ∉ (s.logCall "DeleteUser" [u]).users from not_not_intro h)]
  rw [if_neg ?clean]
  · rfl
  case clean =>
    rintro (hc | hc | hc | hc | hc | hc)
    · exact h1 hc
    · exact hc h2
    · exact hc h3
    · exact hc h4
    · exact hc h5
    · exact hc h6

/-- A user none of whose membership rows exist belongs to no group. -/
theorem groupsOf_nil {s : IAMState} {u : String}
    (h : ∀ p ∈ s.memberships, p.2 ≠ u) : s.groupsOf u = [] := by
  unfold IAMState.groupsOf
  rw [List.filter_eq_nil_iff.mpr (by intro p hp; simpa using h p hp)]
  rfl

/-- A user with no MFA rows has no MFA devices. -/
theorem mfaOf_nil {s : IAMState} {u : String}
    (h : ∀ p ∈ s.mfaDevices, p.1 ≠ u) : s.mfaOf u = [] := by
  unfold IAMState.mfaOf
  rw [List.filter_eq_nil_iff.mpr (by intro p hp; simpa using h p hp)]
  rfl

/-- After deleting every listed row of `u`, the user has no rows left. -/
theorem pairs_all_removed {l : List (String × String)} {u : String} :
    (((l.filter (fun p => decide (¬ (p.1 = u ∧
          p.2 ∈ (l.filter (fun q => decide (q.1 = u))).map (fun q => q.2))))).filter
        (fun p => decide (p.1 = u))).map (fun p => p.2)) = [] := by
  rw [pairs_filter_all]
  exact pairs_of_dropped

/-- After the login-profile step, the teardown per-identity block and the
`delete_user` remainder agree — observably equal final states and matching
success — for an identity with no remaining group memberships and no MFA
devices (over duplicate-free resource tables). -/
theorem rest_equiv (u : String) (t : IAMState)
    (hprof : u ∉ t.loginProfiles)
    (hmfa : ∀ p ∈ t.mfaDevices, p.1 ≠ u)
    (hmem : ∀ p ∈ t.memberships, p.2 ≠ u)
    (hkeys : t.accessKeys.Nodup)
    (hinl : t.userInlinePolicies.Nodup)
    (hatt : t.attachedUserPolicies.Nodup) :
    stripCalls (GroupManager.deleteOneUserRest u t).2
        = stripCalls (UserManager.delete_user_rest u t).2 ∧
      ((GroupManager.deleteOneUserRest u t).1 = true ↔
        (UserManager.delete_user_rest u t).1 = .ok true) := by
  by_cases hu : u ∈ t.users
  · rw [GroupManager.deleteOneUserRest, UserManager.delete_user_rest]
    rw [listAccessKeys_present hu]
    dsimp only
    rw [keysDeleteAll_spec u]
    dsimp only
    rw [deleteKeysLoop_spec u]
    rw [listUserPolicies_present]
    dsimp only
    rw [deleteInlineLoop_spec u]
    rw [listAttachedUserPolicies_present]
    dsimp only
    rw [detachManagedLoop_spec u]
    rw [deleteUser_ok]
    dsimp only
    rw [listGroupsForUser_present]
    rw [groupsOf_nil]
    dsimp only [UserManager.groupsRemoveAll]
    rw [listAttachedUserPolicies_present]
    dsimp only
    rw [detachAll_spec u]
    dsimp only
    rw [detachManagedLoop_spec u]
    rw [listUserPolicies_present]
    dsimp only
    rw [inlineDeleteAll_spec u]
    dsimp only
    rw [deleteInlineLoop_spec u]
    rw [listMfaDevices_present]
    rw [mfaOf_nil]
    dsimp only [UserManager.mfaRemoveAll]
    rw [deleteUser_ok]
    dsimp only
    refine ⟨by rfl, by simp⟩
    all_goals
      first
      | exact hu
      | exact hprof
      | exact pairs_nodup hkeys
      | exact pairs_nodup hinl
      | exact pairs_nodup hatt
      | exact fun k hk => pairs_mem hk
      | exact fun p hp => hmem p hp
      | exact fun p hp => hmfa p hp
      | exact pairs_all_removed
      | exact groupsOf_nil fun p hp => hmem p hp
      | exact mfaOf_nil fun p hp => hmfa p hp
  · rw [GroupManager.deleteOneUserRest, UserManager.delete_user_rest]
    rw [listAccessKeys_absent hu]
    dsimp only
    rw [listUserPolicies_absent]
    dsimp only
    rw [listAttachedUserPolicies_absent]
    dsimp only
    rw [deleteUser_absent]
    dsimp only [UserManager.outerCatch, CErr.code]
    rw [if_pos rfl]
    refine ⟨by rfl, by simp⟩
    all_goals
      first
      | exact hu
      | exact hprof
      | exact pairs_nodup hkeys
      | exact pairs_nodup hinl
      | exact pairs_nodup hatt
      | exact fun k hk => pairs_mem hk
      | exact fun p hp => hmem p hp
      | exact fun p hp => hmfa p hp
      | exact pairs_all_removed
      | exact groupsOf_nil fun p hp => hmem p hp
      | exact mfaOf_nil fun p hp => hmfa p hp


/-- Claim C1 (amended): the per-identity deletion inside teardown deletes
the login profile, the access keys, the inline policies and the
managed-policy attachments and then the identity, but — unlike the full
`delete_user` teardown — never removes remaining group memberships or MFA
devices; it is equivalent to `delete_user` (same observable final state and
matching success) exactly on identities with no remaining memberships and
no MFA devices, over duplicate-free resource tables. -/
theorem claim_C1_amended (u : String) (s : IAMState)
    (hmfa : ∀ p ∈ s.mfaDevices, p.1 ≠ u)
    (hmem : ∀ p ∈ s.memberships, p.2 ≠ u)
    (hkeys : s.accessKeys.Nodup)
    (hinl : s.userInlinePolicies.Nodup)
    (hatt : s.attachedUserPolicies.Nodup) :
    stripCalls (GroupManager.deleteOneUser u s).2
        = stripCalls (UserManager.delete_user u s).2 ∧
      ((GroupManager.deleteOneUser u s).1 = true ↔
        (UserManager.delete_user u s).1 = .ok true) := by
  rw [GroupManager.deleteOneUser, delete_user_eq_rest, deleteLoginProfile_eq]
  exact rest_equiv u _ not_mem_filter_ne (fun p hp => hmfa p hp)
    (fun p hp => hmem p hp) hkeys hinl hatt

/-- Witness for the amended claim C1 on a concrete identity carrying a
login profile and an access key but no memberships or MFA devices. -/
theorem claim_C1_amended_witness :
    stripCalls (GroupManager.deleteOneUser "u"
        { users := ["u"], loginProfiles := ["u"], accessKeys := [("u", "k1")] }).2
        = stripCalls (UserManager.delete_user "u"
            { users := ["u"], loginProfiles := ["u"], accessKeys := [("u", "k1")] }).2 ∧
      ((GroupManager.deleteOneUser "u"
          { users := ["u"], loginProfiles := ["u"], accessKeys := [("u", "k1")] }).1 = true ↔
        (UserManager.delete_user "u"
            { users := ["u"], loginProfiles := ["u"], accessKeys := [("u", "k1")] }).1
          = .ok true) :=
  claim_C1_amended "u" { users := ["u"], loginProfiles := ["u"], accessKeys := [("u", "k1")] }
    (by decide) (by decide) (by decide) (by decide) (by decide)

/-! ## Claim C3: exact policy surface of a policy-assignment call -/

/-- Putting an inline policy on an existing group succeeds and upserts the
policy row. -/
theorem putGroupPolicy_ok {g : String} {s : IAMState} (h : g ∈ s.groups)
    (p doc : String) :
    Aws.putGroupPolicy g p doc s
      = (.ok (), { s with
          groupPolicies := (s.groupPolicies.filter
            (fun t => decide (¬ (t.1 = g ∧ t.2.1 = p)))) ++ [(g, p, doc)],
          calls := s.calls ++ [⟨"PutGroupPolicy", [g, p]⟩] }) := by
  rw [Aws.putGroupPolicy, if_pos (show g ∈ (s.logCall "PutGroupPolicy" [g, p]).groups from h)]
  rfl

/-- The per-resource policy loop, when the target group exists, every
resource is applicable to the role, and every file is present, succeeds and
issues exactly one `PutGroupPolicy` per resource (leaving the group table
unchanged). -/
theorem applyLoop_spec (cat : Catalog) (tg rp : String) :
    ∀ (rs : List String) (s : IAMState),
      tg ∈ s.groups →
      (∀ r ∈ rs, ¬ (r = "region" ∧ rp = "leader")) →
      (∀ r ∈ rs, findDoc cat (fileNameFor rp r) ≠ none) →
      (GroupManager.applyLoop cat tg rp rs s).1 = .ok () ∧
        (GroupManager.applyLoop cat tg rp rs s).2.calls
          = s.calls ++ rs.map (fun r => ⟨"PutGroupPolicy", [tg, policyNameFor rp r]⟩) ∧
        (GroupManager.applyLoop cat tg rp rs s).2.groups = s.groups := by
  intro rs
  induction rs with
  | nil =>
    intro s hg _ _
    rw [GroupManager.applyLoop]
    exact ⟨rfl, by simp, rfl⟩
  | cons r rs ih =>
    intro s hg hskip hfile
    rw [GroupManager.applyLoop]
    rw [if_neg (hskip r (by simp))]
    dsimp only
    set pn := (if r = "region" then "regional_restriction_policy"
               else rp ++ "_" ++ r ++ "_policy") with hpn
    obtain ⟨doc, hdoc⟩ := Option.ne_none_iff_exists'.mp (hfile r (by simp))
    rw [show findDoc cat (if r = "region" then "regional_restriction_policy.json"
          else rp ++ "_" ++ r ++ "_policy.json") = some doc from hdoc]
    dsimp only
    rw [putGroupPolicy_ok hg]
    dsimp only
    obtain ⟨h1, h2, h3⟩ := ih { s with
        groupPolicies := (s.groupPolicies.filter
          (fun t => decide (¬ (t.1 = tg ∧ t.2.1 = pn)))) ++ [(tg, pn, doc)],
        calls := s.calls ++ [⟨"PutGroupPolicy", [tg, pn]⟩] }
      hg (fun x hx => hskip x (by simp [hx])) (fun x hx => hfile x (by simp [hx]))
    refine ⟨h1, ?_, h3⟩
    rw [h2]
    dsimp only
    rw [List.append_assoc]
    rfl

/-- `putsTo` of a pure `PutGroupPolicy` run on its own target lists the
policy names put. -/
theorem putsTo_self (tg : String) (f : String → String) (rs : List String) :
    putsTo (rs.map (fun r => ⟨"PutGroupPolicy", [tg, f r]⟩)) tg = rs.map f := by
  induction rs with
  | nil => rfl
  | cons r rs ih =>
    rw [List.map_cons, List.map_cons, putsTo, List.filterMap_cons]
    dsimp only
    rw [if_pos ⟨rfl, rfl⟩]
    rw [putsTo] at ih
    rw [ih]

/-- `putsTo` of a `PutGroupPolicy` run on a different target is empty. -/
theorem putsTo_other {g tg : String} (h : tg ≠ g) (f : String → String)
    (rs : List String) :
    putsTo (rs.map (fun r => ⟨"PutGroupPolicy", [tg, f r]⟩)) g = [] := by
  induction rs with
  | nil => rfl
  | cons r rs ih =>
    rw [List.map_cons, putsTo, List.filterMap_cons]
    dsimp only
    rw [if_neg (by rintro ⟨-, hc⟩; exact h hc)]
    rw [putsTo] at ih
    rw [ih]

/-- `putsTo` distributes over concatenated traces. -/
theorem putsTo_append (c₁ c₂ : List CallRec) (g : String) :
    putsTo (c₁ ++ c₂) g = putsTo c₁ g ++ putsTo c₂ g := by
  rw [putsTo, putsTo, putsTo, List.filterMap_append]

/-- A lookup call contributes nothing to `putsTo`. -/
theorem putsTo_getGroup (a : String) (g : String) :
    putsTo [⟨"GetGroup", [a]⟩] g = [] := rfl

/-- The leader group name is never the student group name. -/
theorem leaders_ne (x : String) : "Leaders-" ++ x ≠ x := by
  intro h
  have hlen := congrArg String.length h
  rw [String.length_append] at hlen
  have h8 : ("Leaders-" : String).length = 8 := rfl
  rw [h8] at hlen
  omega

/-- The leader group name is nonempty. -/
theorem leaders_ne_empty (x : String) : "Leaders-" ++ x ≠ "" := by
  intro h
  have hlen := congrArg String.length h
  rw [String.length_append] at hlen
  have h8 : ("Leaders-" : String).length = 8 := rfl
  have h0 : ("" : String).length = 0 := rfl
  rw [h8, h0] at hlen
  omega

/-- Claim C3: a policy-assignment call with resource-type list `R` on an
existing cohort assigns group policies for exactly `R` plus the auto-added
regional restriction on the student group, and — only when the leader group
exists — for exactly `R` minus `region` on the leader group; when the
leader group is missing no leader policy is put and the call still
succeeds.  (All relevant catalog files are assumed present.) -/
theorem claim_C3_policy_surface (cat : Catalog) (R : List String) (gname : String)
    (s : IAMState)
    (hg : normalize_name gname ≠ "")
    (hsg : normalize_name gname ∈ s.groups)
    (hreg : findDoc cat "regional_restriction_policy.json" ≠ none)
    (hstu : ∀ r ∈ R, r ≠ "region" → findDoc cat ("student_" ++ r ++ "_policy.json") ≠ none)
    (hlea : ∀ r ∈ R, r ≠ "region" → findDoc cat ("leader_" ++ r ++ "_policy.json") ≠ none) :
    (GroupManager.assign_policies_to_target cat R gname "" s).1 = .ok () ∧
      putsTo ((GroupManager.assign_policies_to_target cat R gname "" s).2.calls.drop
          s.calls.length) (normalize_name gname)
        = (if "region" ∈ R then R else R ++ ["region"]).map (policyNameFor "student") ∧
      (("Leaders-" ++ normalize_name gname) ∈ s.groups →
        putsTo ((GroupManager.assign_policies_to_target cat R gname "" s).2.calls.drop
            s.calls.length) ("Leaders-" ++ normalize_name gname)
          = (R.filter (fun r => decide (r ≠ "region"))).map (policyNameFor "leader")) ∧
      (("Leaders-" ++ normalize_name gname) ∉ s.groups →
        putsTo ((GroupManager.assign_policies_to_target cat R gname "" s).2.calls.drop
            s.calls.length) ("Leaders-" ++ normalize_name gname) = []) := by
  have hgname : gname ≠ "" := fun hc => hg (by rw [hc]; rfl)
  rw [GroupManager.assign_policies_to_target]
  rw [if_neg (by simp), if_neg hgname]
  dsimp only
  rw [GroupManager.apply_policies_from_files, normalize_name_idem gname]
  have hfilesS : ∀ r ∈ (if "region" ∈ R then R else R ++ ["region"]),
      findDoc cat (fileNameFor "student" r) ≠ none := by
    intro r hr
    by_cases hrr : r = "region"
    · subst hrr
      rw [show fileNameFor "student" "region" = "regional_restriction_policy.json" from rfl]
      exact hreg
    · have hrR : r ∈ R := by
        by_cases hRr : "region" ∈ R
        · rw [if_pos hRr] at hr; exact hr
        · rw [if_neg hRr] at hr
          rcases List.mem_append.mp hr with h | h
          · exact h
          · exact absurd (by simpa using h) hrr
      rw [show fileNameFor "student" r = "student_" ++ r ++ "_policy.json" from by
        rw [fileNameFor, if_neg hrr]; exact rfl]
      exact hstu r hrR hrr
  obtain ⟨h1, h2, h3⟩ := applyLoop_spec cat (normalize_name gname) "student"
    (if "region" ∈ R then R else R ++ ["region"]) s hsg
    (by intro r _; rintro ⟨-, hc⟩; exact absurd hc (by decide)) hfilesS
  rw [show GroupManager.applyLoop cat (normalize_name gname) "student"
        (if "region" ∈ R then R else R ++ ["region"]) s
      = (.ok (), (GroupManager.applyLoop cat (normalize_name gname) "student"
          (if "region" ∈ R then R else R ++ ["region"]) s).2) from by rw [← h1]]
  dsimp only
  rw [GroupManager.group_exists, normalize_leaders hg]
  rw [if_neg (leaders_ne_empty (normalize_name gname))]
  by_cases hlg : ("Leaders-" ++ normalize_name gname) ∈ s.groups
  · rw [Aws.getGroup, if_pos (by
      rw [logCall_groups, h3]
      exact hlg)]
    dsimp only
    rw [GroupManager.apply_policies_from_files, normalize_leaders hg]
    have hfilesL : ∀ r ∈ R.filter (fun r => decide (r ≠ "region")),
        findDoc cat (fileNameFor "leader" r) ≠ none := by
      intro r hr
      obtain ⟨hrR, hrr⟩ := List.mem_filter.mp hr
      have hrr' : r ≠ "region" := by simpa using hrr
      rw [show fileNameFor "leader" r = "leader_" ++ r ++ "_policy.json" from by
        rw [fileNameFor, if_neg hrr']; exact rfl]
      exact hlea r hrR hrr'
    obtain ⟨g1, g2, g3⟩ := applyLoop_spec cat ("Leaders-" ++ normalize_name gname) "leader"
      (R.filter (fun r => decide (r ≠ "region")))
      (((GroupManager.applyLoop cat (normalize_name gname) "student"
          (if "region" ∈ R then R else R ++ ["region"]) s).2).logCall "GetGroup"
        ["Leaders-" ++ normalize_name gname])
      (by rw [logCall_groups, h3]; exact hlg)
      (by
        intro r hr
        rintro ⟨hc, -⟩
        exact absurd hc (by simpa using (List.mem_filter.mp hr).2))
      hfilesL
    refine ⟨g1, ?_, fun _ => ?_, fun hc => absurd hlg hc⟩
    · rw [g2, logCall_calls_eq, h2]
      rw [List.append_assoc, List.append_assoc, List.drop_left]
      rw [putsTo_append, putsTo_append, putsTo_self, putsTo_getGroup,
        putsTo_other (leaders_ne (normalize_name gname)) _]
      simp
    · rw [g2, logCall_calls_eq, h2]
      rw [List.append_assoc, List.append_assoc, List.drop_left]
      rw [putsTo_append, putsTo_append, putsTo_self, putsTo_getGroup,
        putsTo_other (Ne.symm (leaders_ne (normalize_name gname))) _]
      simp
  · rw [Aws.getGroup, if_neg (by
      rw [logCall_groups, h3]
      exact hlg)]
    dsimp only [CErr.code]
    rw [if_pos rfl]
    refine ⟨rfl, ?_, fun hc => absurd hc hlg, fun _ => ?_⟩
    · rw [logCall_calls_eq, h2]
      rw [List.append_assoc, List.drop_left]
      rw [putsTo_append, putsTo_self, putsTo_getGroup]
      simp
    · rw [logCall_calls_eq, h2]
      rw [List.append_assoc, List.drop_left]
      rw [putsTo_append, putsTo_getGroup,
        putsTo_other (Ne.symm (leaders_ne (normalize_name gname))) _]
      simp

/-- Witness for claim C3 on a concrete cohort with both groups and a full
catalog. -/
theorem claim_C3_witness :
    (GroupManager.assign_policies_to_target
        [("regional_restriction_policy.json", "RR"), ("student_s3_policy.json", "S"),
         ("leader_s3_policy.json", "L")] ["s3"] "G" ""
        { groups := ["G", "Leaders-G"] }).1 = .ok () ∧
      putsTo ((GroupManager.assign_policies_to_target
          [("regional_restriction_policy.json", "RR"), ("student_s3_policy.json", "S"),
           ("leader_s3_policy.json", "L")] ["s3"] "G" ""
          { groups := ["G", "Leaders-G"] }).2.calls.drop
            ({ groups := ["G", "Leaders-G"] } : IAMState).calls.length) (normalize_name "G")
        = (if "region" ∈ ["s3"] then ["s3"] else ["s3"] ++ ["region"]).map
            (policyNameFor "student") ∧
      (("Leaders-" ++ normalize_name "G") ∈ ({ groups := ["G", "Leaders-G"] } : IAMState).groups →
        putsTo ((GroupManager.assign_policies_to_target
            [("regional_restriction_policy.json", "RR"), ("student_s3_policy.json", "S"),
             ("leader_s3_policy.json", "L")] ["s3"] "G" ""
            { groups := ["G", "Leaders-G"] }).2.calls.drop
              ({ groups := ["G", "Leaders-G"] } : IAMState).calls.length)
            ("Leaders-" ++ normalize_name "G")
          = (["s3"].filter (fun r => decide (r ≠ "region"))).map (policyNameFor "leader")) ∧
      (("Leaders-" ++ normalize_name "G") ∉ ({ groups := ["G", "Leaders-G"] } : IAMState).groups →
        putsTo ((GroupManager.assign_policies_to_target
            [("regional_restriction_policy.json", "RR"), ("student_s3_policy.json", "S"),
             ("leader_s3_policy.json", "L")] ["s3"] "G" ""
            { groups := ["G", "Leaders-G"] }).2.calls.drop
              ({ groups := ["G", "Leaders-G"] } : IAMState).calls.length)
            ("Leaders-" ++ normalize_name "G") = []) :=
  claim_C3_policy_surface
    [("regional_restriction_policy.json", "RR"), ("student_s3_policy.json", "S"),
     ("leader_s3_policy.json", "L")] ["s3"] "G" { groups := ["G", "Leaders-G"] }
    (by decide) (by decide) (by decide) (by decide) (by decide)

/-! ## Claims C2 and C10: member-creation rollback on a missing group -/

/-- Creating a fresh user (no injected fault) succeeds, adding the user row
and its tags. -/
theorem createUser_ok {u : String} {s : IAMState} (hf : u ∉ s.failUserCreates)
    (hu : u ∉ s.users) (tags : List (String × String)) :
    Aws.createUser u tags s
      = (.ok (), { s with users := s.users ++ [u],
                          userTags := s.userTags ++ tags.map (fun t => (u, t.1, t.2)),
                          calls := s.calls ++ [⟨"CreateUser", [u]⟩] }) := by
  rw [Aws.createUser, if_neg (show u ∉ (s.logCall "CreateUser" [u]).failUserCreates from hf),
    if_neg (show u ∉ (s.logCall "CreateUser" [u]).users from hu)]
  rfl

/-- Creating an existing user (no injected fault) raises
`EntityAlreadyExists` and changes nothing but the trace. -/
theorem createUser_exists {u : String} {s : IAMState} (hf : u ∉ s.failUserCreates)
    (hu : u ∈ s.users) (tags : List (String × String)) :
    Aws.createUser u tags s
      = (.error (.client "EntityAlreadyExists" ("User with name " ++ u ++ " already exists.")),
         s.logCall "CreateUser" [u]) := by
  rw [Aws.createUser, if_neg (show u ∉ (s.logCall "CreateUser" [u]).failUserCreates from hf),
    if_pos (show u ∈ (s.logCall "CreateUser" [u]).users from hu)]

/-- Setting the first login profile of an existing user succeeds. -/
theorem createLoginProfile_ok {u : String} {s : IAMState} (hu : u ∈ s.users)
    (hp : u ∉ s.loginProfiles) :
    Aws.createLoginProfile u s
      = (.ok (), { s with loginProfiles := s.loginProfiles ++ [u],
                          calls := s.calls ++ [⟨"CreateLoginProfile", [u]⟩] }) := by
  rw [Aws.createLoginProfile,
    if_neg (show ¬ u ∉ (s.logCall "CreateLoginProfile" [u]).users from not_not_intro hu),
    if_neg (show u ∉ (s.logCall "CreateLoginProfile" [u]).loginProfiles from hp)]
  rfl

/-- Adding a user to a missing group raises the group-flavoured
`NoSuchEntity`. -/
theorem addUserToGroup_noGroup {g : String} (u : String) {s : IAMState}
    (hg : g ∉ s.groups) :
    Aws.addUserToGroup g u s
      = (.error (.client "NoSuchEntity" ("The group with name " ++ g ++ " cannot be found.")),
         s.logCall "AddUserToGroup" [g, u]) := by
  rw [Aws.addUserToGroup, if_pos (show g ∉ (s.logCall "AddUserToGroup" [g, u]).groups from hg)]

/-- Correctness of the substring test. -/
theorem hasInfixChars_iff {n h : List Char} :
    UserManager.hasInfixChars n h = true ↔ n <:+: h := by
  induction h with
  | nil =>
    rw [UserManager.hasInfixChars]
    simp [List.isEmpty_iff]
  | cons c t ih =>
    rw [UserManager.hasInfixChars, List.infix_cons_iff]
    rw [Bool.or_eq_true, List.isPrefixOf_iff_prefix, ih]

/-- The lower-cased missing-group message of the directory service contains
the word `group` (the branch test of `create_users_for_group`). -/
theorem contains_group_msg (g : String) :
    UserManager.strContains
      (UserManager.pyLower ("The group with name " ++ g ++ " cannot be found."))
      "group" = true := by
  rw [UserManager.strContains, UserManager.pyLower]
  rw [hasInfixChars_iff]
  have hdata : ("The group with name " ++ g ++ " cannot be found.").data
      = "The group with name ".data ++ (g.data ++ " cannot be found.".data) := by
    rw [String.data_append, String.data_append, List.append_assoc]
  rw [hdata]
  show "group".data <:+: List.map UserManager.lowerChar _
  rw [List.map_append]
  refine List.IsInfix.trans ?_ (List.prefix_append _ _).isInfix
  refine ⟨"the ".data, " with name ".data, ?_⟩
  decide

/-- Filtering out a name absent from the prefix removes exactly the
appended row. -/
theorem filter_append_self {l : List String} {u : String} (h : u ∉ l) :
    (l ++ [u]).filter (fun x => decide (x ≠ u)) = l := by
  rw [List.filter_append]
  have h1 : l.filter (fun x => decide (x ≠ u)) = l :=
    List.filter_eq_self.mpr (by
      intro a ha
      simp only [decide_eq_true_eq]
      exact fun he => h (he ▸ ha))
  have h2 : ([u].filter (fun x => decide (x ≠ u))) = [] := by simp
  rw [h1, h2, List.append_nil]

/-- Filtering out a tag owner absent from the prefix removes exactly the
appended tag row. -/
theorem filter_append_tag {l : List (String × String × String)} {u k v : String}
    (h : ∀ t ∈ l, t.1 ≠ u) :
    ((l ++ [(u, k, v)]).filter (fun t => decide (t.1 ≠ u))) = l := by
  rw [List.filter_append]
  have h1 : l.filter (fun t => decide (t.1 ≠ u)) = l :=
    List.filter_eq_self.mpr (by
      intro a ha
      simp only [decide_eq_true_eq]
      exact h a ha)
  have h2 : (([(u, k, v)] : List (String × String × String)).filter
      (fun t => decide (t.1 ≠ u))) = [] := by simp
  rw [h1, h2, List.append_nil]

/-- A user with no rows in a pair table lists nothing there. -/
theorem pairsOf_nil {l : List (String × String)} {u : String}
    (h : ∀ p ∈ l, p.1 ≠ u) :
    ((l.filter (fun p => decide (p.1 = u))).map (fun p => p.2)) = [] := by
  rw [List.filter_eq_nil_iff.mpr (by intro p hp; simpa using h p hp)]
  rfl

/-- The member-creation loop on a missing target group: existing members
are skipped, and the first fresh member triggers the missing-group abort
whose rollback restores the user table exactly; if every member already
exists the loop reports success.  (`WF` rules out orphan resource rows, and
no remote create faults are injected.) -/
theorem createUsersLoop_missing_group (g : String) (n : Nat) :
    ∀ (users : List String) (s : IAMState),
      WF s → s.failUserCreates = [] → g ∉ s.groups →
      (UserManager.createUsersLoop g n users [] s).2.users = s.users ∧
        ((∀ u ∈ users, normalize_name (u ++ "-" ++ g) ∈ s.users) →
          (UserManager.createUsersLoop g n users [] s).1
            = "Successfully processed " ++ toString n ++ " users for group " ++ g ++ ".") ∧
        ((∃ u ∈ users, normalize_name (u ++ "-" ++ g) ∉ s.users) →
          (UserManager.createUsersLoop g n users [] s).1
            = "Operation aborted: Group " ++ g ++ " does not exist.") := by
  intro users
  induction users with
  | nil =>
    intro s hwf hf hg
    rw [UserManager.createUsersLoop]
    exact ⟨rfl, fun _ => rfl, by rintro ⟨u, hu, -⟩; cases hu⟩
  | cons u us ih =>
    intro s hwf hf hg
    obtain ⟨hwfm, hwfp, hwfk, hwfi, hwfa, hwfmfa, hwft⟩ := hwf
    rw [UserManager.createUsersLoop]
    dsimp only
    by_cases hun : normalize_name (u ++ "-" ++ g) ∈ s.users
    · rw [createUser_exists (by simp [hf]) hun]
      dsimp only [CErr.code]
      rw [if_pos rfl]
      obtain ⟨ih1, ih2, ih3⟩ := ih (s.logCall "CreateUser" [normalize_name (u ++ "-" ++ g)])
        ⟨hwfm, hwfp, hwfk, hwfi, hwfa, hwfmfa, hwft⟩ hf hg
      refine ⟨ih1, ?_, ?_⟩
      · intro hall
        exact ih2 fun x hx => hall x (List.mem_cons_of_mem u hx)
      · rintro ⟨x, hx, hxf⟩
        rcases List.mem_cons.mp hx with hxe | hx'
        · exact absurd hun (hxe ▸ hxf)
        · exact ih3 ⟨x, hx', hxf⟩
    · rw [createUser_ok (by simp [hf]) hun [("Group", g)]]
      dsimp only
      rw [createLoginProfile_ok]
      on_goal 2 => exact List.mem_append.mpr (.inr (by simp))
      on_goal 2 => exact fun hc => hun (hwfp _ hc)
      dsimp only
      rw [addUserToGroup_noGroup]
      on_goal 2 => exact hg
      dsimp only [CErr.code, CErr.message]
      rw [if_neg (by decide)]
      rw [if_pos ⟨rfl, contains_group_msg g⟩]
      simp only [List.nil_append]
      rw [UserManager.rollbackLoop]
      rw [deleteLoginProfile_eq]
      rw [deleteUser_ok]
      on_goal 2 => exact List.mem_append.mpr (.inr (by simp))
      on_goal 2 => exact not_mem_filter_ne
      on_goal 2 => exact pairsOf_nil fun p hp he => hun (he ▸ hwfk p hp)
      on_goal 2 => exact groupsOf_nil fun p hp he => hun (he ▸ (hwfm p hp).2)
      on_goal 2 => exact pairsOf_nil fun p hp he => hun (he ▸ hwfi p hp)
      on_goal 2 => exact pairsOf_nil fun p hp he => hun (he ▸ hwfa p hp)
      on_goal 2 => exact mfaOf_nil fun p hp he => hun (he ▸ hwfmfa p hp)
      dsimp only [IAMState.logCall]
      rw [UserManager.rollbackLoop]
      rw [filter_append_self hun]
      refine ⟨rfl, ?_, fun _ => trivial⟩
      intro hall
      exact absurd (hall u (by simp)) hun

/-- Claim C2 counterexample: in the generic-failure branch of
`create_users_for_group` (a failure that is neither already-exists nor the
missing-group error) the promised full rollback does not happen.  With the
target group present, member `a` is created and added to the group; a
`ServiceFailure` on member `b` then aborts the call and triggers the
rollback, but the rollback's `DeleteUser` on `a-G` fails with a
`DeleteConflict` (the identity still belongs to the group, and
`_rollback_users` never removes memberships) which `_rollback_users`
swallows — so the aborted-operation message is returned while `a-G` remains
an identity and a group member afterwards. -/
theorem claim_C2_cex :
    (UserManager.create_users_for_group ["a", "b"] "G"
        { groups := ["G"], failUserCreates := ["b-G"] }).1
        = "Operation aborted: Error with b-G - Rate exceeded" ∧
      "a-G" ∈ (UserManager.create_users_for_group ["a", "b"] "G"
          { groups := ["G"], failUserCreates := ["b-G"] }).2.users ∧
      ("G", "a-G") ∈ (UserManager.create_users_for_group ["a", "b"] "G"
          { groups := ["G"], failUserCreates := ["b-G"] }).2.memberships ∧
      (⟨"DeleteUser", ["a-G"]⟩ : CallRec)
        ∈ (UserManager.create_users_for_group ["a", "b"] "G"
            { groups := ["G"], failUserCreates := ["b-G"] }).2.calls := by
  decide

/-- C2 (amended): a `create_users_for_group` call against a missing target group never
leaves behind an identity it created: already-existing members are merely
skipped, and as soon as a fresh member is reached the missing-group failure
of `add_user_to_group` aborts the call, the rollback deletes every identity
created in the call (login profile first, then the user), the user table is
restored exactly, and the descriptive aborted-operation message is
returned. -/
theorem claim_C2_missing_group_rollback (users : List String)
    (group_name : String) (s : IAMState) (hwf : WF s)
    (hf : s.failUserCreates = [])
    (hg : normalize_name group_name ∉ s.groups) :
    (UserManager.create_users_for_group users group_name s).2.users = s.users ∧
      ((∃ u ∈ users,
          normalize_name (u ++ "-" ++ normalize_name group_name) ∉ s.users) →
        (UserManager.create_users_for_group users group_name s).1
          = "Operation aborted: Group " ++ normalize_name group_name
              ++ " does not exist.") := by
  obtain ⟨h1, -, h3⟩ := createUsersLoop_missing_group (normalize_name group_name)
    users.length users s hwf hf hg
  exact ⟨h1, h3⟩

/-- Witness for C2 at a concrete input: on an empty account with no such
group, `create_users_for_group ["a", "b"] "G"` restores the (empty) user
table and reports the missing-group abort. -/
theorem claim_C2_missing_group_rollback_witness :
    (UserManager.create_users_for_group ["a", "b"] "G" {}).2.users
        = ({} : IAMState).users ∧
      ((∃ u ∈ ["a", "b"],
          normalize_name (u ++ "-" ++ normalize_name "G")
            ∉ ({} : IAMState).users) →
        (UserManager.create_users_for_group ["a", "b"] "G" {}).1
          = "Operation aborted: Group " ++ normalize_name "G"
              ++ " does not exist.") :=
  claim_C2_missing_group_rollback ["a", "b"] "G" {}
    ⟨by decide, by decide, by decide, by decide, by decide, by decide, by decide⟩
    rfl (by decide)

/-- C10: when the creation of a member identity succeeds but the subsequent
group-membership step fails with the missing-group error, that identity is
itself part of the rollback set: after the aborted call it no longer exists
in the user table, and the call returns the aborted-operation message. -/
theorem claim_C10_failing_identity_rolled_back (users : List String)
    (group_name : String) (s : IAMState) (u : String) (hwf : WF s)
    (hf : s.failUserCreates = [])
    (hg : normalize_name group_name ∉ s.groups) (hu : u ∈ users)
    (hun : normalize_name (u ++ "-" ++ normalize_name group_name) ∉ s.users) :
    normalize_name (u ++ "-" ++ normalize_name group_name)
        ∉ (UserManager.create_users_for_group users group_name s).2.users ∧
      (UserManager.create_users_for_group users group_name s).1
        = "Operation aborted: Group " ++ normalize_name group_name
            ++ " does not exist." := by
  obtain ⟨h1, -, h3⟩ := createUsersLoop_missing_group (normalize_name group_name)
    users.length users s hwf hf hg
  refine ⟨?_, h3 ⟨u, hu, hun⟩⟩
  show _ ∉ (UserManager.createUsersLoop (normalize_name group_name)
    users.length users [] s).2.users
  rw [h1]
  exact hun

/-- Witness for C10 at a concrete input: the lone member of
`create_users_for_group ["a"] "G"` on an empty account is created and then
rolled back, so it is absent afterwards and the abort message is
returned. -/
theorem claim_C10_failing_identity_rolled_back_witness :
    normalize_name ("a" ++ "-" ++ normalize_name "G")
        ∉ (UserManager.create_users_for_group ["a"] "G" {}).2.users ∧
      (UserManager.create_users_for_group ["a"] "G" {}).1
        = "Operation aborted: Group " ++ normalize_name "G"
            ++ " does not exist." :=
  claim_C10_failing_identity_rolled_back ["a"] "G" {} "a"
    ⟨by decide, by decide, by decide, by decide, by decide, by decide, by decide⟩
    rfl (by decide) (by decide) (by decide)
